import Mathlib

/-!
Shallow embedding of the BudgetApp domain state store and its persistence
adapter (`src/lib/store/useBudgetStore.ts` and the storage module), together
with proofs of the specified properties.

Records are embedded as Lean structures; the browser key-value store
(`localStorage`) is a partial map from string keys to stored JSON values;
JSON serialization (`JSON.stringify` / `JSON.parse`) is embedded at the level
of a JSON syntax tree, with encoders and decoders for each record collection.
Nondeterministic inputs of the code (`crypto.randomUUID()`,
`new Date().toISOString()`) are passed as explicit parameters.
-/

/-- JSON value tree: the shape of data held under a `localStorage` key. -/
inductive Json where
  | null : Json
  | num : Int → Json
  | str : String → Json
  | arr : List Json → Json
  | obj : List (String × Json) → Json

/-- Expense record (`src/lib/types.ts`). The payment method union type is
embedded as a plain string; amounts are integers (minor currency units). -/
structure Expense where
  id : String
  amount : Int
  category : String
  paymentMethod : String
  description : String
  date : String
  createdAt : String
deriving DecidableEq, Repr, Inhabited

/-- Budget record (`src/lib/types.ts`). -/
structure Budget where
  id : String
  category : String
  amount : Int
  month : String
  createdAt : String
deriving DecidableEq, Repr, Inhabited

/-- Payment-method configuration record (`src/lib/types.ts`); the three
optional fields are `Option`s, matching fields that may be absent. -/
structure PaymentMethodConfig where
  id : String
  name : String
  balance : Int
  creditLimit : Option Int
  billingDate : Option Int
  notes : Option String
deriving DecidableEq, Repr, Inhabited

/-- Budget-category record (`src/lib/types.ts`). -/
structure BudgetCategory where
  id : String
  name : String
  createdAt : String
deriving DecidableEq, Repr, Inhabited

/-- `Omit Expense (id | createdAt)`: what the caller passes to `addExpense`. -/
structure ExpenseInput where
  amount : Int
  category : String
  paymentMethod : String
  description : String
  date : String
deriving DecidableEq, Repr

/-- `Omit Budget (id | createdAt)`: what the caller passes to `addBudget`. -/
structure BudgetInput where
  category : String
  amount : Int
  month : String
deriving DecidableEq, Repr

/-- `Omit PaymentMethodConfig id`: input of `addPaymentMethod`. -/
structure PaymentMethodInput where
  name : String
  balance : Int
  creditLimit : Option Int
  billingDate : Option Int
  notes : Option String
deriving DecidableEq, Repr

/-- `Omit BudgetCategory (id | createdAt)`: input of `addBudgetCategory`. -/
structure BudgetCategoryInput where
  name : String
deriving DecidableEq, Repr

/-- `Partial Expense`: a merge patch; `none` means the field is not supplied. -/
structure ExpensePatch where
  id : Option String := none
  amount : Option Int := none
  category : Option String := none
  paymentMethod : Option String := none
  description : Option String := none
  date : Option String := none
  createdAt : Option String := none
deriving DecidableEq, Repr

/-- `Partial Budget`. -/
structure BudgetPatch where
  id : Option String := none
  category : Option String := none
  amount : Option Int := none
  month : Option String := none
  createdAt : Option String := none
deriving DecidableEq, Repr

/-- `Partial PaymentMethodConfig`. In the source an optional field may also be
patched; a patch value of `some v` sets the field to `v`. -/
structure PaymentMethodPatch where
  id : Option String := none
  name : Option String := none
  balance : Option Int := none
  creditLimit : Option (Option Int) := none
  billingDate : Option (Option Int) := none
  notes : Option (Option String) := none
deriving DecidableEq, Repr

/-- `Partial BudgetCategory`. -/
structure BudgetCategoryPatch where
  id : Option String := none
  name : Option String := none
  createdAt : Option String := none
deriving DecidableEq, Repr

/-- The spread `{ ...expenseData, id, createdAt }` of `addExpense`. -/
def mkExpense (d : ExpenseInput) (id createdAt : String) : Expense :=
  { id := id, amount := d.amount, category := d.category,
    paymentMethod := d.paymentMethod, description := d.description,
    date := d.date, createdAt := createdAt }

/-- The spread `{ ...budgetData, id, createdAt }` of `addBudget`. -/
def mkBudget (d : BudgetInput) (id createdAt : String) : Budget :=
  { id := id, category := d.category, amount := d.amount,
    month := d.month, createdAt := createdAt }

/-- The spread `{ ...paymentMethodData, id }` of `addPaymentMethod`
(no creation timestamp on this record type). -/
def mkPaymentMethod (d : PaymentMethodInput) (id : String) : PaymentMethodConfig :=
  { id := id, name := d.name, balance := d.balance,
    creditLimit := d.creditLimit, billingDate := d.billingDate,
    notes := d.notes }

/-- The spread `{ ...categoryData, id, createdAt }` of `addBudgetCategory`. -/
def mkBudgetCategory (d : BudgetCategoryInput) (id createdAt : String) : BudgetCategory :=
  { id := id, name := d.name, createdAt := createdAt }

/-- The object spread `{ ...e, ...updates }`: supplied fields override. -/
def mergeExpense (e : Expense) (u : ExpensePatch) : Expense :=
  { id := u.id.getD e.id, amount := u.amount.getD e.amount,
    category := u.category.getD e.category,
    paymentMethod := u.paymentMethod.getD e.paymentMethod,
    description := u.description.getD e.description,
    date := u.date.getD e.date, createdAt := u.createdAt.getD e.createdAt }

/-- The object spread `{ ...b, ...updates }` for budgets. -/
def mergeBudget (b : Budget) (u : BudgetPatch) : Budget :=
  { id := u.id.getD b.id, category := u.category.getD b.category,
    amount := u.amount.getD b.amount, month := u.month.getD b.month,
    createdAt := u.createdAt.getD b.createdAt }

/-- The object spread `{ ...p, ...updates }` for payment methods. -/
def mergePaymentMethod (p : PaymentMethodConfig) (u : PaymentMethodPatch) :
    PaymentMethodConfig :=
  { id := u.id.getD p.id, name := u.name.getD p.name,
    balance := u.balance.getD p.balance,
    creditLimit := u.creditLimit.getD p.creditLimit,
    billingDate := u.billingDate.getD p.billingDate,
    notes := u.notes.getD p.notes }

/-- The object spread `{ ...c, ...updates }` for budget categories. -/
def mergeBudgetCategory (c : BudgetCategory) (u : BudgetCategoryPatch) :
    BudgetCategory :=
  { id := u.id.getD c.id, name := u.name.getD c.name,
    createdAt := u.createdAt.getD c.createdAt }

/-! ### JSON encoding and decoding

`JSON.stringify` / `JSON.parse` round a collection through its serialized
form on every storage access; this is embedded as encoders into, and
decoders out of, the `Json` tree. `JSON.stringify` omits fields holding
`undefined`, so optional fields encode to nothing when absent. -/

/-- Look up a JSON object field by name (first occurrence). -/
def getField (fields : List (String × Json)) (name : String) : Option Json :=
  (fields.find? (fun f => f.1 == name)).map (fun f => f.2)

/-- Read a required string field. -/
def asStr : Option Json → Option String
  | some (Json.str s) => some s
  | _ => none

/-- Read a required numeric field. -/
def asNum : Option Json → Option Int
  | some (Json.num n) => some n
  | _ => none

/-- Read an optional numeric field: an absent field decodes to `none`. -/
def asOptNum : Option Json → Option (Option Int)
  | none => some none
  | some (Json.num n) => some (some n)
  | _ => none

/-- Read an optional string field: an absent field decodes to `none`. -/
def asOptStr : Option Json → Option (Option String)
  | none => some none
  | some (Json.str s) => some (some s)
  | _ => none

/-- Serialized form of one Expense. -/
def encodeExpense (e : Expense) : Json :=
  Json.obj [("id", Json.str e.id), ("amount", Json.num e.amount),
    ("category", Json.str e.category),
    ("paymentMethod", Json.str e.paymentMethod),
    ("description", Json.str e.description),
    ("date", Json.str e.date), ("createdAt", Json.str e.createdAt)]

/-- Typed reading of one parsed Expense. -/
def decodeExpense : Json → Option Expense
  | Json.obj f => do
      let id ← asStr (getField f "id")
      let amount ← asNum (getField f "amount")
      let category ← asStr (getField f "category")
      let paymentMethod ← asStr (getField f "paymentMethod")
      let description ← asStr (getField f "description")
      let date ← asStr (getField f "date")
      let createdAt ← asStr (getField f "createdAt")
      pure { id := id, amount := amount, category := category,
             paymentMethod := paymentMethod, description := description,
             date := date, createdAt := createdAt }
  | _ => none

/-- Serialized form of one Budget. -/
def encodeBudget (b : Budget) : Json :=
  Json.obj [("id", Json.str b.id), ("category", Json.str b.category),
    ("amount", Json.num b.amount), ("month", Json.str b.month),
    ("createdAt", Json.str b.createdAt)]

/-- Typed reading of one parsed Budget. -/
def decodeBudget : Json → Option Budget
  | Json.obj f => do
      let id ← asStr (getField f "id")
      let category ← asStr (getField f "category")
      let amount ← asNum (getField f "amount")
      let month ← asStr (getField f "month")
      let createdAt ← asStr (getField f "createdAt")
      pure { id := id, category := category, amount := amount,
             month := month, createdAt := createdAt }
  | _ => none

/-- Serialized form of one PaymentMethodConfig; absent optional fields are
omitted, as `JSON.stringify` drops `undefined` properties. -/
def encodePaymentMethod (p : PaymentMethodConfig) : Json :=
  Json.obj ([("id", Json.str p.id), ("name", Json.str p.name),
      ("balance", Json.num p.balance)]
    ++ (match p.creditLimit with
        | some n => [("creditLimit", Json.num n)]
        | none => [])
    ++ (match p.billingDate with
        | some n => [("billingDate", Json.num n)]
        | none => [])
    ++ (match p.notes with
        | some s => [("notes", Json.str s)]
        | none => []))

/-- Typed reading of one parsed PaymentMethodConfig. -/
def decodePaymentMethod : Json → Option PaymentMethodConfig
  | Json.obj f => do
      let id ← asStr (getField f "id")
      let name ← asStr (getField f "name")
      let balance ← asNum (getField f "balance")
      let creditLimit ← asOptNum (getField f "creditLimit")
      let billingDate ← asOptNum (getField f "billingDate")
      let notes ← asOptStr (getField f "notes")
      pure { id := id, name := name, balance := balance,
             creditLimit := creditLimit, billingDate := billingDate,
             notes := notes }
  | _ => none

/-- Serialized form of one BudgetCategory. -/
def encodeBudgetCategory (c : BudgetCategory) : Json :=
  Json.obj [("id", Json.str c.id), ("name", Json.str c.name),
    ("createdAt", Json.str c.createdAt)]

/-- Typed reading of one parsed BudgetCategory. -/
def decodeBudgetCategory : Json → Option BudgetCategory
  | Json.obj f => do
      let id ← asStr (getField f "id")
      let name ← asStr (getField f "name")
      let createdAt ← asStr (getField f "createdAt")
      pure { id := id, name := name, createdAt := createdAt }
  | _ => none

/-- Serialized form of a whole expenses collection. -/
def encodeExpenses (xs : List Expense) : Json :=
  Json.arr (xs.map encodeExpense)

/-- Decode each element of a parsed array of expenses. -/
def decodeExpenseList : List Json → Option (List Expense)
  | [] => some []
  | j :: rest => do
      let e ← decodeExpense j
      let es ← decodeExpenseList rest
      pure (e :: es)

/-- Typed reading of a whole parsed expenses collection. -/
def decodeExpenses : Json → Option (List Expense)
  | Json.arr js => decodeExpenseList js
  | _ => none

/-- Serialized form of a whole budgets collection. -/
def encodeBudgets (xs : List Budget) : Json :=
  Json.arr (xs.map encodeBudget)

/-- Decode each element of a parsed array of budgets. -/
def decodeBudgetList : List Json → Option (List Budget)
  | [] => some []
  | j :: rest => do
      let b ← decodeBudget j
      let bs ← decodeBudgetList rest
      pure (b :: bs)

/-- Typed reading of a whole parsed budgets collection. -/
def decodeBudgets : Json → Option (List Budget)
  | Json.arr js => decodeBudgetList js
  | _ => none

/-- Serialized form of a whole payment-methods collection. -/
def encodePaymentMethods (xs : List PaymentMethodConfig) : Json :=
  Json.arr (xs.map encodePaymentMethod)

/-- Decode each element of a parsed array of payment methods. -/
def decodePaymentMethodList : List Json → Option (List PaymentMethodConfig)
  | [] => some []
  | j :: rest => do
      let p ← decodePaymentMethod j
      let ps ← decodePaymentMethodList rest
      pure (p :: ps)

/-- Typed reading of a whole parsed payment-methods collection. -/
def decodePaymentMethods : Json → Option (List PaymentMethodConfig)
  | Json.arr js => decodePaymentMethodList js
  | _ => none

/-- Serialized form of a whole budget-categories collection. -/
def encodeBudgetCategories (xs : List BudgetCategory) : Json :=
  Json.arr (xs.map encodeBudgetCategory)

/-- Decode each element of a parsed array of budget categories. -/
def decodeBudgetCategoryList : List Json → Option (List BudgetCategory)
  | [] => some []
  | j :: rest => do
      let c ← decodeBudgetCategory j
      let cs ← decodeBudgetCategoryList rest
      pure (c :: cs)

/-- Typed reading of a whole parsed budget-categories collection. -/
def decodeBudgetCategories : Json → Option (List BudgetCategory)
  | Json.arr js => decodeBudgetCategoryList js
  | _ => none

/-! ### Persistence adapter (the storage module)

`localStorage` is a key-value map from strings to stored values; the
environment flags mirror the two guards of the source
(`typeof window === "undefined"` and `!localStorage`).  On malformed stored
data the source's behavior is undefined (an unchecked cast of
`JSON.parse`); here a failed decode reads as the empty collection, which is
never exercised: all stored data in the proved properties was produced by
`save`. -/

/-- The browser environment plus the current `localStorage` contents. -/
structure Storage where
  hasWindow : Bool
  hasLocalStorage : Bool
  data : String → Option Json

/-! The four fixed collection keys of the storage module. -/

namespace STORAGE_KEYS

def expenses : String := "budget-app-expenses"

def budgets : String := "budget-app-budgets"

def paymentMethods : String := "budget-app-payment-methods"

def budgetCategories : String := "budget-app-budget-categories"

end STORAGE_KEYS

/-- `localStorage.setItem`: overwrite the value under one key. -/
def Storage.setItem (st : Storage) (key : String) (v : Json) : Storage :=
  { st with data := fun k => if k = key then some v else st.data k }

/-- First-match replacement, as `findIndex` + index assignment in the
source: replace the first expense whose id matches, or report `none` when
no index matches (the source then skips the save). -/
def updateExpenseById (id : String) (u : ExpensePatch) :
    List Expense → Option (List Expense)
  | [] => none
  | e :: rest =>
      if e.id == id then some (mergeExpense e u :: rest)
      else (updateExpenseById id u rest).map (fun xs => e :: xs)

/-- First-match replacement for budgets. -/
def updateBudgetById (id : String) (u : BudgetPatch) :
    List Budget → Option (List Budget)
  | [] => none
  | b :: rest =>
      if b.id == id then some (mergeBudget b u :: rest)
      else (updateBudgetById id u rest).map (fun xs => b :: xs)

/-- First-match replacement for payment methods. -/
def updatePaymentMethodById (id : String) (u : PaymentMethodPatch) :
    List PaymentMethodConfig → Option (List PaymentMethodConfig)
  | [] => none
  | p :: rest =>
      if p.id == id then some (mergePaymentMethod p u :: rest)
      else (updatePaymentMethodById id u rest).map (fun xs => p :: xs)

/-- First-match replacement for budget categories. -/
def updateBudgetCategoryById (id : String) (u : BudgetCategoryPatch) :
    List BudgetCategory → Option (List BudgetCategory)
  | [] => none
  | c :: rest =>
      if c.id == id then some (mergeBudgetCategory c u :: rest)
      else (updateBudgetCategoryById id u rest).map (fun xs => c :: xs)

namespace expenseStorage

/-- Read the whole expenses collection from storage. -/
def getAll (st : Storage) : List Expense :=
  if !st.hasWindow || !st.hasLocalStorage then []
  else
    match st.data STORAGE_KEYS.expenses with
    | some j => (decodeExpenses j).getD []
    | none => []

/-- Overwrite the whole expenses collection in storage. -/
def save (st : Storage) (expenses : List Expense) : Storage :=
  if !st.hasWindow || !st.hasLocalStorage then st
  else st.setItem STORAGE_KEYS.expenses (encodeExpenses expenses)

/-- Read-all, push, write-all. -/
def add (st : Storage) (expense : Expense) : Storage :=
  save st (getAll st ++ [expense])

/-- Read-all, patch the first index whose id matches, write-all; no save
when the id is absent. -/
def update (st : Storage) (id : String) (updates : ExpensePatch) : Storage :=
  match updateExpenseById id updates (getAll st) with
  | some expenses => save st expenses
  | none => st

/-- Read-all, drop every id match, write-all. -/
def delete (st : Storage) (id : String) : Storage :=
  save st ((getAll st).filter (fun e => e.id != id))

end expenseStorage

namespace budgetStorage

/-- Read the whole budgets collection from storage. -/
def getAll (st : Storage) : List Budget :=
  if !st.hasWindow || !st.hasLocalStorage then []
  else
    match st.data STORAGE_KEYS.budgets with
    | some j => (decodeBudgets j).getD []
    | none => []

/-- Overwrite the whole budgets collection in storage. -/
def save (st : Storage) (budgets : List Budget) : Storage :=
  if !st.hasWindow || !st.hasLocalStorage then st
  else st.setItem STORAGE_KEYS.budgets (encodeBudgets budgets)

/-- Read-all, push, write-all. -/
def add (st : Storage) (budget : Budget) : Storage :=
  save st (getAll st ++ [budget])

/-- Read-all, patch the first index whose id matches, write-all. -/
def update (st : Storage) (id : String) (updates : BudgetPatch) : Storage :=
  match updateBudgetById id updates (getAll st) with
  | some budgets => save st budgets
  | none => st

/-- Read-all, drop every id match, write-all. -/
def delete (st : Storage) (id : String) : Storage :=
  save st ((getAll st).filter (fun b => b.id != id))

end budgetStorage

namespace paymentMethodStorage

/-- Read the whole payment-methods collection from storage. -/
def getAll (st : Storage) : List PaymentMethodConfig :=
  if !st.hasWindow || !st.hasLocalStorage then []
  else
    match st.data STORAGE_KEYS.paymentMethods with
    | some j => (decodePaymentMethods j).getD []
    | none => []

/-- Overwrite the whole payment-methods collection in storage. -/
def save (st : Storage) (paymentMethods : List PaymentMethodConfig) : Storage :=
  if !st.hasWindow || !st.hasLocalStorage then st
  else st.setItem STORAGE_KEYS.paymentMethods (encodePaymentMethods paymentMethods)

/-- Read-all, push, write-all. -/
def add (st : Storage) (paymentMethod : PaymentMethodConfig) : Storage :=
  save st (getAll st ++ [paymentMethod])

/-- Read-all, patch the first index whose id matches, write-all. -/
def update (st : Storage) (id : String) (updates : PaymentMethodPatch) : Storage :=
  match updatePaymentMethodById id updates (getAll st) with
  | some paymentMethods => save st paymentMethods
  | none => st

/-- Read-all, drop every id match, write-all. -/
def delete (st : Storage) (id : String) : Storage :=
  save st ((getAll st).filter (fun p => p.id != id))

end paymentMethodStorage

namespace budgetCategoryStorage

/-- Read the whole budget-categories collection from storage. -/
def getAll (st : Storage) : List BudgetCategory :=
  if !st.hasWindow || !st.hasLocalStorage then []
  else
    match st.data STORAGE_KEYS.budgetCategories with
    | some j => (decodeBudgetCategories j).getD []
    | none => []

/-- Overwrite the whole budget-categories collection in storage. -/
def save (st : Storage) (categories : List BudgetCategory) : Storage :=
  if !st.hasWindow || !st.hasLocalStorage then st
  else st.setItem STORAGE_KEYS.budgetCategories (encodeBudgetCategories categories)

/-- Read-all, push, write-all. -/
def add (st : Storage) (category : BudgetCategory) : Storage :=
  save st (getAll st ++ [category])

/-- Read-all, patch the first index whose id matches, write-all. -/
def update (st : Storage) (id : String) (updates : BudgetCategoryPatch) : Storage :=
  match updateBudgetCategoryById id updates (getAll st) with
  | some categories => save st categories
  | none => st

/-- Read-all, drop every id match, write-all. -/
def delete (st : Storage) (id : String) : Storage :=
  save st ((getAll st).filter (fun c => c.id != id))

end budgetCategoryStorage

/-! ### Domain state store (the zustand store)

The store's in-memory state is four ordered collections; a `World` pairs it
with the storage so each mutator can both write through and update memory,
exactly as each action of the source does.  Fresh identifiers and creation
timestamps are explicit parameters of the mutators that generate them. -/

/-- In-memory state shape of the store. -/
structure StoreState where
  expenses : List Expense
  budgets : List Budget
  paymentMethods : List PaymentMethodConfig
  budgetCategories : List BudgetCategory
deriving DecidableEq, Repr

/-- The store together with the persistence environment it writes through. -/
structure World where
  store : StoreState
  storage : Storage

/-- Load all four collections from storage, replacing memory; early return
(no state change at all) when no window object exists.  Named
`initializeStore` because the source's name is a reserved word in Lean. -/
def initializeStore (w : World) : World :=
  if !w.storage.hasWindow then w
  else
    { w with
      store :=
        { expenses := expenseStorage.getAll w.storage,
          budgets := budgetStorage.getAll w.storage,
          paymentMethods := paymentMethodStorage.getAll w.storage,
          budgetCategories := budgetCategoryStorage.getAll w.storage } }

/-- Build the full Expense, write it through, append it in memory. -/
def addExpense (w : World) (expenseData : ExpenseInput)
    (freshId now : String) : World :=
  let newExpense := mkExpense expenseData freshId now
  { store := { w.store with expenses := w.store.expenses ++ [newExpense] },
    storage := expenseStorage.add w.storage newExpense }

/-- Write the patch through, merge-patch every id match in memory. -/
def updateExpense (w : World) (id : String) (updates : ExpensePatch) : World :=
  { store :=
      { w.store with
        expenses := w.store.expenses.map
          (fun e => if e.id == id then mergeExpense e updates else e) },
    storage := expenseStorage.update w.storage id updates }

/-- Write the deletion through, drop every id match in memory. -/
def deleteExpense (w : World) (id : String) : World :=
  { store :=
      { w.store with
        expenses := w.store.expenses.filter (fun e => e.id != id) },
    storage := expenseStorage.delete w.storage id }

/-- Build the full Budget, write it through, append it in memory. -/
def addBudget (w : World) (budgetData : BudgetInput)
    (freshId now : String) : World :=
  let newBudget := mkBudget budgetData freshId now
  { store := { w.store with budgets := w.store.budgets ++ [newBudget] },
    storage := budgetStorage.add w.storage newBudget }

/-- Write the patch through, merge-patch every id match in memory. -/
def updateBudget (w : World) (id : String) (updates : BudgetPatch) : World :=
  { store :=
      { w.store with
        budgets := w.store.budgets.map
          (fun b => if b.id == id then mergeBudget b updates else b) },
    storage := budgetStorage.update w.storage id updates }

/-- Write the deletion through, drop every id match in memory. -/
def deleteBudget (w : World) (id : String) : World :=
  { store :=
      { w.store with
        budgets := w.store.budgets.filter (fun b => b.id != id) },
    storage := budgetStorage.delete w.storage id }

/-- Build the full PaymentMethodConfig, write it through, append it. -/
def addPaymentMethod (w : World) (paymentMethodData : PaymentMethodInput)
    (freshId : String) : World :=
  let newPaymentMethod := mkPaymentMethod paymentMethodData freshId
  { store :=
      { w.store with
        paymentMethods := w.store.paymentMethods ++ [newPaymentMethod] },
    storage := paymentMethodStorage.add w.storage newPaymentMethod }

/-- Write the patch through, merge-patch every id match in memory. -/
def updatePaymentMethod (w : World) (id : String)
    (updates : PaymentMethodPatch) : World :=
  { store :=
      { w.store with
        paymentMethods := w.store.paymentMethods.map
          (fun p => if p.id == id then mergePaymentMethod p updates else p) },
    storage := paymentMethodStorage.update w.storage id updates }

/-- Write the deletion through, drop every id match in memory. -/
def deletePaymentMethod (w : World) (id : String) : World :=
  { store :=
      { w.store with
        paymentMethods := w.store.paymentMethods.filter
          (fun p => p.id != id) },
    storage := paymentMethodStorage.delete w.storage id }

/-- Build the full BudgetCategory, write it through, append it. -/
def addBudgetCategory (w : World) (categoryData : BudgetCategoryInput)
    (freshId now : String) : World :=
  let newCategory := mkBudgetCategory categoryData freshId now
  { store :=
      { w.store with
        budgetCategories := w.store.budgetCategories ++ [newCategory] },
    storage := budgetCategoryStorage.add w.storage newCategory }

/-- Write the patch through, merge-patch every id match in memory. -/
def updateBudgetCategory (w : World) (id : String)
    (updates : BudgetCategoryPatch) : World :=
  { store :=
      { w.store with
        budgetCategories := w.store.budgetCategories.map
          (fun c => if c.id == id then mergeBudgetCategory c updates else c) },
    storage := budgetCategoryStorage.update w.storage id updates }

/-- Write the deletion through, drop every id match in memory. -/
def deleteBudgetCategory (w : World) (id : String) : World :=
  { store :=
      { w.store with
        budgetCategories := w.store.budgetCategories.filter
          (fun c => c.id != id) },
    storage := budgetCategoryStorage.delete w.storage id }

/-- JavaScript's `String.prototype.startsWith`, embedded as a prefix test
on the character sequences of the two strings. -/
def strStartsWith (s pre : String) : Bool :=
  pre.data.isPrefixOf s.data

/-- Expenses whose date string starts with the given year-month. -/
def getExpensesByMonth (s : StoreState) (month : String) : List Expense :=
  s.expenses.filter (fun e => strStartsWith e.date month)

/-- Budgets whose month matches exactly. -/
def getBudgetsByMonth (s : StoreState) (month : String) : List Budget :=
  s.budgets.filter (fun b => b.month == month)

/-- Sum of amounts over the month's expenses in the given category. -/
def getCategoryTotalByMonth (s : StoreState) (category month : String) : Int :=
  ((getExpensesByMonth s month).filter (fun e => e.category == category)).foldl
    (fun sum e => sum + e.amount) 0

/-- Look up the first budget for the month and category; no budget is never
exceeded; otherwise compare the category total strictly. -/
def isBudgetExceeded (s : StoreState) (category month : String) : Bool :=
  match (getBudgetsByMonth s month).find? (fun b => b.category == category) with
  | none => false
  | some budget =>
      decide (getCategoryTotalByMonth s category month > budget.amount)

/-- Sum of balances over all payment methods. -/
def getTotalBalance (s : StoreState) : Int :=
  s.paymentMethods.foldl (fun sum method => sum + method.balance) 0

/-! ### Basic storage lemmas -/

@[simp]
theorem Storage.setItem_hasWindow (st : Storage) (key : String) (v : Json) :
    (st.setItem key v).hasWindow = st.hasWindow := rfl

@[simp]
theorem Storage.setItem_hasLocalStorage (st : Storage) (key : String) (v : Json) :
    (st.setItem key v).hasLocalStorage = st.hasLocalStorage := rfl

@[simp]
theorem Storage.setItem_data_self (st : Storage) (key : String) (v : Json) :
    (st.setItem key v).data key = some v := by
  simp [Storage.setItem]

theorem Storage.setItem_data_ne (st : Storage) (key : String) (v : Json)
    (k : String) (hk : k ≠ key) : (st.setItem key v).data k = st.data k := by
  simp [Storage.setItem, hk]

theorem Storage.setItem_setItem (st : Storage) (key : String) (v v' : Json) :
    (st.setItem key v).setItem key v' = st.setItem key v' := by
  simp only [Storage.setItem]
  congr 1
  funext k
  by_cases hk : k = key <;> simp [hk]

/-! ### Codec round-trips -/

@[simp]
theorem decodeExpense_encodeExpense (e : Expense) :
    decodeExpense (encodeExpense e) = some e := rfl

@[simp]
theorem decodeBudget_encodeBudget (b : Budget) :
    decodeBudget (encodeBudget b) = some b := rfl

@[simp]
theorem decodePaymentMethod_encodePaymentMethod (p : PaymentMethodConfig) :
    decodePaymentMethod (encodePaymentMethod p) = some p := by
  obtain ⟨i, n, b, cl, bd, nt⟩ := p
  cases cl <;> cases bd <;> cases nt <;> rfl

@[simp]
theorem decodeBudgetCategory_encodeBudgetCategory (c : BudgetCategory) :
    decodeBudgetCategory (encodeBudgetCategory c) = some c := rfl

theorem decodeExpenseList_map (xs : List Expense) :
    decodeExpenseList (xs.map encodeExpense) = some xs := by
  induction xs with
  | nil => rfl
  | cons e rest ih => simp [decodeExpenseList, ih]

@[simp]
theorem decodeExpenses_encodeExpenses (xs : List Expense) :
    decodeExpenses (encodeExpenses xs) = some xs := by
  simp [decodeExpenses, encodeExpenses, decodeExpenseList_map]

theorem decodeBudgetList_map (xs : List Budget) :
    decodeBudgetList (xs.map encodeBudget) = some xs := by
  induction xs with
  | nil => rfl
  | cons b rest ih => simp [decodeBudgetList, ih]

@[simp]
theorem decodeBudgets_encodeBudgets (xs : List Budget) :
    decodeBudgets (encodeBudgets xs) = some xs := by
  simp [decodeBudgets, encodeBudgets, decodeBudgetList_map]

theorem decodePaymentMethodList_map (xs : List PaymentMethodConfig) :
    decodePaymentMethodList (xs.map encodePaymentMethod) = some xs := by
  induction xs with
  | nil => rfl
  | cons p rest ih => simp [decodePaymentMethodList, ih]

@[simp]
theorem decodePaymentMethods_encodePaymentMethods (xs : List PaymentMethodConfig) :
    decodePaymentMethods (encodePaymentMethods xs) = some xs := by
  simp [decodePaymentMethods, encodePaymentMethods, decodePaymentMethodList_map]

theorem decodeBudgetCategoryList_map (xs : List BudgetCategory) :
    decodeBudgetCategoryList (xs.map encodeBudgetCategory) = some xs := by
  induction xs with
  | nil => rfl
  | cons c rest ih => simp [decodeBudgetCategoryList, ih]

@[simp]
theorem decodeBudgetCategories_encodeBudgetCategories (xs : List BudgetCategory) :
    decodeBudgetCategories (encodeBudgetCategories xs) = some xs := by
  simp [decodeBudgetCategories, encodeBudgetCategories, decodeBudgetCategoryList_map]

/-! ### Storage operation lemmas, per collection -/

namespace expenseStorage

theorem save_unavailableExp (st : Storage) (xs : List Expense)
    (h : st.hasWindow = false ∨ st.hasLocalStorage = false) :
    save st xs = st := by
  unfold save
  rcases h with h | h <;> simp [h]

theorem getAll_unavailableExp (st : Storage)
    (h : st.hasWindow = false ∨ st.hasLocalStorage = false) :
    getAll st = [] := by
  unfold getAll
  rcases h with h | h <;> simp [h]

theorem getAll_saveExp (st : Storage) (xs : List Expense)
    (hw : st.hasWindow = true) (hl : st.hasLocalStorage = true) :
    getAll (save st xs) = xs := by
  simp [getAll, save, hw, hl]

theorem save_preservesExp (st : Storage) (xs : List Expense) :
    (save st xs).hasWindow = st.hasWindow ∧
    (save st xs).hasLocalStorage = st.hasLocalStorage ∧
    ∀ k, k ≠ STORAGE_KEYS.expenses → (save st xs).data k = st.data k := by
  unfold save
  by_cases hcond : (!st.hasWindow || !st.hasLocalStorage) = true
  · simp [hcond]
  · simp only [hcond]
    refine ⟨by simp, by simp, fun k hk => ?_⟩
    simp [Storage.setItem_data_ne _ _ _ k hk]

theorem getAll_congrExp (st st2 : Storage)
    (h1 : st2.hasWindow = st.hasWindow)
    (h2 : st2.hasLocalStorage = st.hasLocalStorage)
    (h3 : st2.data STORAGE_KEYS.expenses = st.data STORAGE_KEYS.expenses) :
    getAll st2 = getAll st := by
  unfold getAll
  rw [h1, h2, h3]

theorem add_preservesExp (st : Storage) (e : Expense) :
    (add st e).hasWindow = st.hasWindow ∧
    (add st e).hasLocalStorage = st.hasLocalStorage ∧
    ∀ k, k ≠ STORAGE_KEYS.expenses → (add st e).data k = st.data k := by
  unfold add
  exact save_preservesExp _ _

theorem update_preservesExp (st : Storage) (id : String) (u : ExpensePatch) :
    (update st id u).hasWindow = st.hasWindow ∧
    (update st id u).hasLocalStorage = st.hasLocalStorage ∧
    ∀ k, k ≠ STORAGE_KEYS.expenses → (update st id u).data k = st.data k := by
  unfold update
  cases h : updateExpenseById id u (getAll st) with
  | some xs => exact save_preservesExp _ _
  | none => exact ⟨rfl, rfl, fun _ _ => rfl⟩

theorem delete_preservesExp (st : Storage) (id : String) :
    (delete st id).hasWindow = st.hasWindow ∧
    (delete st id).hasLocalStorage = st.hasLocalStorage ∧
    ∀ k, k ≠ STORAGE_KEYS.expenses → (delete st id).data k = st.data k := by
  unfold delete
  exact save_preservesExp _ _

theorem getAll_addExp (st : Storage) (e : Expense)
    (hw : st.hasWindow = true) (hl : st.hasLocalStorage = true) :
    getAll (add st e) = getAll st ++ [e] := by
  unfold add
  exact getAll_saveExp _ _ hw hl

theorem getAll_deleteExp (st : Storage) (id : String)
    (hw : st.hasWindow = true) (hl : st.hasLocalStorage = true) :
    getAll (delete st id) = (getAll st).filter (fun e => e.id != id) := by
  unfold delete
  exact getAll_saveExp _ _ hw hl

end expenseStorage

namespace budgetStorage

theorem save_unavailableBud (st : Storage) (xs : List Budget)
    (h : st.hasWindow = false ∨ st.hasLocalStorage = false) :
    save st xs = st := by
  unfold save
  rcases h with h | h <;> simp [h]

theorem getAll_unavailableBud (st : Storage)
    (h : st.hasWindow = false ∨ st.hasLocalStorage = false) :
    getAll st = [] := by
  unfold getAll
  rcases h with h | h <;> simp [h]

theorem getAll_saveBud (st : Storage) (xs : List Budget)
    (hw : st.hasWindow = true) (hl : st.hasLocalStorage = true) :
    getAll (save st xs) = xs := by
  simp [getAll, save, hw, hl]

theorem save_preservesBud (st : Storage) (xs : List Budget) :
    (save st xs).hasWindow = st.hasWindow ∧
    (save st xs).hasLocalStorage = st.hasLocalStorage ∧
    ∀ k, k ≠ STORAGE_KEYS.budgets → (save st xs).data k = st.data k := by
  unfold save
  by_cases hcond : (!st.hasWindow || !st.hasLocalStorage) = true
  · simp [hcond]
  · simp only [hcond]
    refine ⟨by simp, by simp, fun k hk => ?_⟩
    simp [Storage.setItem_data_ne _ _ _ k hk]

theorem getAll_congrBud (st st2 : Storage)
    (h1 : st2.hasWindow = st.hasWindow)
    (h2 : st2.hasLocalStorage = st.hasLocalStorage)
    (h3 : st2.data STORAGE_KEYS.budgets = st.data STORAGE_KEYS.budgets) :
    getAll st2 = getAll st := by
  unfold getAll
  rw [h1, h2, h3]

theorem add_preservesBud (st : Storage) (e : Budget) :
    (add st e).hasWindow = st.hasWindow ∧
    (add st e).hasLocalStorage = st.hasLocalStorage ∧
    ∀ k, k ≠ STORAGE_KEYS.budgets → (add st e).data k = st.data k := by
  unfold add
  exact save_preservesBud _ _

theorem update_preservesBud (st : Storage) (id : String) (u : BudgetPatch) :
    (update st id u).hasWindow = st.hasWindow ∧
    (update st id u).hasLocalStorage = st.hasLocalStorage ∧
    ∀ k, k ≠ STORAGE_KEYS.budgets → (update st id u).data k = st.data k := by
  unfold update
  cases h : updateBudgetById id u (getAll st) with
  | some xs => exact save_preservesBud _ _
  | none => exact ⟨rfl, rfl, fun _ _ => rfl⟩

theorem delete_preservesBud (st : Storage) (id : String) :
    (delete st id).hasWindow = st.hasWindow ∧
    (delete st id).hasLocalStorage = st.hasLocalStorage ∧
    ∀ k, k ≠ STORAGE_KEYS.budgets → (delete st id).data k = st.data k := by
  unfold delete
  exact save_preservesBud _ _

theorem getAll_addBud (st : Storage) (e : Budget)
    (hw : st.hasWindow = true) (hl : st.hasLocalStorage = true) :
    getAll (add st e) = getAll st ++ [e] := by
  unfold add
  exact getAll_saveBud _ _ hw hl

theorem getAll_deleteBud (st : Storage) (id : String)
    (hw : st.hasWindow = true) (hl : st.hasLocalStorage = true) :
    getAll (delete st id) = (getAll st).filter (fun e => e.id != id) := by
  unfold delete
  exact getAll_saveBud _ _ hw hl

end budgetStorage

namespace paymentMethodStorage

theorem save_unavailablePm (st : Storage) (xs : List PaymentMethodConfig)
    (h : st.hasWindow = false ∨ st.hasLocalStorage = false) :
    save st xs = st := by
  unfold save
  rcases h with h | h <;> simp [h]

theorem getAll_unavailablePm (st : Storage)
    (h : st.hasWindow = false ∨ st.hasLocalStorage = false) :
    getAll st = [] := by
  unfold getAll
  rcases h with h | h <;> simp [h]

theorem getAll_savePm (st : Storage) (xs : List PaymentMethodConfig)
    (hw : st.hasWindow = true) (hl : st.hasLocalStorage = true) :
    getAll (save st xs) = xs := by
  simp [getAll, save, hw, hl]

theorem save_preservesPm (st : Storage) (xs : List PaymentMethodConfig) :
    (save st xs).hasWindow = st.hasWindow ∧
    (save st xs).hasLocalStorage = st.hasLocalStorage ∧
    ∀ k, k ≠ STORAGE_KEYS.paymentMethods → (save st xs).data k = st.data k := by
  unfold save
  by_cases hcond : (!st.hasWindow || !st.hasLocalStorage) = true
  · simp [hcond]
  · simp only [hcond]
    refine ⟨by simp, by simp, fun k hk => ?_⟩
    simp [Storage.setItem_data_ne _ _ _ k hk]

theorem getAll_congrPm (st st2 : Storage)
    (h1 : st2.hasWindow = st.hasWindow)
    (h2 : st2.hasLocalStorage = st.hasLocalStorage)
    (h3 : st2.data STORAGE_KEYS.paymentMethods = st.data STORAGE_KEYS.paymentMethods) :
    getAll st2 = getAll st := by
  unfold getAll
  rw [h1, h2, h3]

theorem add_preservesPm (st : Storage) (e : PaymentMethodConfig) :
    (add st e).hasWindow = st.hasWindow ∧
    (add st e).hasLocalStorage = st.hasLocalStorage ∧
    ∀ k, k ≠ STORAGE_KEYS.paymentMethods → (add st e).data k = st.data k := by
  unfold add
  exact save_preservesPm _ _

theorem update_preservesPm (st : Storage) (id : String) (u : PaymentMethodPatch) :
    (update st id u).hasWindow = st.hasWindow ∧
    (update st id u).hasLocalStorage = st.hasLocalStorage ∧
    ∀ k, k ≠ STORAGE_KEYS.paymentMethods → (update st id u).data k = st.data k := by
  unfold update
  cases h : updatePaymentMethodById id u (getAll st) with
  | some xs => exact save_preservesPm _ _
  | none => exact ⟨rfl, rfl, fun _ _ => rfl⟩

theorem delete_preservesPm (st : Storage) (id : String) :
    (delete st id).hasWindow = st.hasWindow ∧
    (delete st id).hasLocalStorage = st.hasLocalStorage ∧
    ∀ k, k ≠ STORAGE_KEYS.paymentMethods → (delete st id).data k = st.data k := by
  unfold delete
  exact save_preservesPm _ _

theorem getAll_addPm (st : Storage) (e : PaymentMethodConfig)
    (hw : st.hasWindow = true) (hl : st.hasLocalStorage = true) :
    getAll (add st e) = getAll st ++ [e] := by
  unfold add
  exact getAll_savePm _ _ hw hl

theorem getAll_deletePm (st : Storage) (id : String)
    (hw : st.hasWindow = true) (hl : st.hasLocalStorage = true) :
    getAll (delete st id) = (getAll st).filter (fun e => e.id != id) := by
  unfold delete
  exact getAll_savePm _ _ hw hl

end paymentMethodStorage

namespace budgetCategoryStorage

theorem save_unavailableCat (st : Storage) (xs : List BudgetCategory)
    (h : st.hasWindow = false ∨ st.hasLocalStorage = false) :
    save st xs = st := by
  unfold save
  rcases h with h | h <;> simp [h]

theorem getAll_unavailableCat (st : Storage)
    (h : st.hasWindow = false ∨ st.hasLocalStorage = false) :
    getAll st = [] := by
  unfold getAll
  rcases h with h | h <;> simp [h]

theorem getAll_saveCat (st : Storage) (xs : List BudgetCategory)
    (hw : st.hasWindow = true) (hl : st.hasLocalStorage = true) :
    getAll (save st xs) = xs := by
  simp [getAll, save, hw, hl]

theorem save_preservesCat (st : Storage) (xs : List BudgetCategory) :
    (save st xs).hasWindow = st.hasWindow ∧
    (save st xs).hasLocalStorage = st.hasLocalStorage ∧
    ∀ k, k ≠ STORAGE_KEYS.budgetCategories → (save st xs).data k = st.data k := by
  unfold save
  by_cases hcond : (!st.hasWindow || !st.hasLocalStorage) = true
  · simp [hcond]
  · simp only [hcond]
    refine ⟨by simp, by simp, fun k hk => ?_⟩
    simp [Storage.setItem_data_ne _ _ _ k hk]

theorem getAll_congrCat (st st2 : Storage)
    (h1 : st2.hasWindow = st.hasWindow)
    (h2 : st2.hasLocalStorage = st.hasLocalStorage)
    (h3 : st2.data STORAGE_KEYS.budgetCategories = st.data STORAGE_KEYS.budgetCategories) :
    getAll st2 = getAll st := by
  unfold getAll
  rw [h1, h2, h3]

theorem add_preservesCat (st : Storage) (e : BudgetCategory) :
    (add st e).hasWindow = st.hasWindow ∧
    (add st e).hasLocalStorage = st.hasLocalStorage ∧
    ∀ k, k ≠ STORAGE_KEYS.budgetCategories → (add st e).data k = st.data k := by
  unfold add
  exact save_preservesCat _ _

theorem update_preservesCat (st : Storage) (id : String) (u : BudgetCategoryPatch) :
    (update st id u).hasWindow = st.hasWindow ∧
    (update st id u).hasLocalStorage = st.hasLocalStorage ∧
    ∀ k, k ≠ STORAGE_KEYS.budgetCategories → (update st id u).data k = st.data k := by
  unfold update
  cases h : updateBudgetCategoryById id u (getAll st) with
  | some xs => exact save_preservesCat _ _
  | none => exact ⟨rfl, rfl, fun _ _ => rfl⟩

theorem delete_preservesCat (st : Storage) (id : String) :
    (delete st id).hasWindow = st.hasWindow ∧
    (delete st id).hasLocalStorage = st.hasLocalStorage ∧
    ∀ k, k ≠ STORAGE_KEYS.budgetCategories → (delete st id).data k = st.data k := by
  unfold delete
  exact save_preservesCat _ _

theorem getAll_addCat (st : Storage) (e : BudgetCategory)
    (hw : st.hasWindow = true) (hl : st.hasLocalStorage = true) :
    getAll (add st e) = getAll st ++ [e] := by
  unfold add
  exact getAll_saveCat _ _ hw hl

theorem getAll_deleteCat (st : Storage) (id : String)
    (hw : st.hasWindow = true) (hl : st.hasLocalStorage = true) :
    getAll (delete st id) = (getAll st).filter (fun e => e.id != id) := by
  unfold delete
  exact getAll_saveCat _ _ hw hl

end budgetCategoryStorage

/-! ### List-level helper lemmas -/

theorem foldl_add_amount (xs : List Expense) (init : Int) :
    xs.foldl (fun sum e => sum + e.amount) init =
      init + (xs.map (fun e => e.amount)).sum := by
  induction xs generalizing init with
  | nil => simp
  | cons e rest ih => simp [List.foldl_cons, ih, add_assoc]

theorem updateExpenseById_eq_none (id : String) (u : ExpensePatch)
    (xs : List Expense) (h : ∀ e ∈ xs, e.id ≠ id) :
    updateExpenseById id u xs = none := by
  induction xs with
  | nil => rfl
  | cons e rest ih =>
      have he : (e.id == id) = false := by
        simp [h e (List.mem_cons_self e rest)]
      simp [updateExpenseById, he, ih (fun x hx => h x (List.mem_cons_of_mem e hx))]

theorem map_mergeExpense_of_not_mem (id : String) (u : ExpensePatch)
    (xs : List Expense) (h : ∀ e ∈ xs, e.id ≠ id) :
    xs.map (fun e => if e.id == id then mergeExpense e u else e) = xs := by
  induction xs with
  | nil => rfl
  | cons e rest ih =>
      have he : ¬ (e.id == id) = true := by
        simp [h e (List.mem_cons_self e rest)]
      rw [List.map_cons, if_neg he,
        ih (fun x hx => h x (List.mem_cons_of_mem e hx))]

theorem map_mergeExpense_of_updateById_some (id : String) (u : ExpensePatch)
    (xs ys : List Expense) (hnd : (xs.map (fun e => e.id)).Nodup)
    (h : updateExpenseById id u xs = some ys) :
    xs.map (fun e => if e.id == id then mergeExpense e u else e) = ys := by
  induction xs generalizing ys with
  | nil => simp [updateExpenseById] at h
  | cons e rest ih =>
      rw [List.map_cons] at hnd
      have hnd1 := (List.nodup_cons.mp hnd).1
      have hnd2 := (List.nodup_cons.mp hnd).2
      rw [List.map_cons]
      by_cases he : (e.id == id) = true
      · have hid : e.id = id := by simpa using he
        simp only [updateExpenseById, if_pos he] at h
        injection h with h
        subst h
        have hrest : ∀ x ∈ rest, x.id ≠ id := by
          intro x hx hxid
          apply hnd1
          have hmem : x.id ∈ rest.map (fun e => e.id) :=
            List.mem_map_of_mem _ hx
          rw [hid, ← hxid]
          exact hmem
        rw [if_pos he, map_mergeExpense_of_not_mem id u rest hrest]
      · simp only [updateExpenseById, if_neg he] at h
        cases hrest : updateExpenseById id u rest with
        | none => rw [hrest] at h; exact absurd h (by simp)
        | some zs =>
            rw [hrest] at h
            simp only [Option.map_some'] at h
            injection h with h
            subst h
            rw [if_neg he, ih zs hnd2 hrest]

theorem updateBudgetById_eq_none (id : String) (u : BudgetPatch)
    (xs : List Budget) (h : ∀ e ∈ xs, e.id ≠ id) :
    updateBudgetById id u xs = none := by
  induction xs with
  | nil => rfl
  | cons e rest ih =>
      have he : (e.id == id) = false := by
        simp [h e (List.mem_cons_self e rest)]
      simp [updateBudgetById, he, ih (fun x hx => h x (List.mem_cons_of_mem e hx))]

theorem map_mergeBudget_of_not_mem (id : String) (u : BudgetPatch)
    (xs : List Budget) (h : ∀ e ∈ xs, e.id ≠ id) :
    xs.map (fun e => if e.id == id then mergeBudget e u else e) = xs := by
  induction xs with
  | nil => rfl
  | cons e rest ih =>
      have he : ¬ (e.id == id) = true := by
        simp [h e (List.mem_cons_self e rest)]
      rw [List.map_cons, if_neg he,
        ih (fun x hx => h x (List.mem_cons_of_mem e hx))]

theorem map_mergeBudget_of_updateById_some (id : String) (u : BudgetPatch)
    (xs ys : List Budget) (hnd : (xs.map (fun e => e.id)).Nodup)
    (h : updateBudgetById id u xs = some ys) :
    xs.map (fun e => if e.id == id then mergeBudget e u else e) = ys := by
  induction xs generalizing ys with
  | nil => simp [updateBudgetById] at h
  | cons e rest ih =>
      rw [List.map_cons] at hnd
      have hnd1 := (List.nodup_cons.mp hnd).1
      have hnd2 := (List.nodup_cons.mp hnd).2
      rw [List.map_cons]
      by_cases he : (e.id == id) = true
      · have hid : e.id = id := by simpa using he
        simp only [updateBudgetById, if_pos he] at h
        injection h with h
        subst h
        have hrest : ∀ x ∈ rest, x.id ≠ id := by
          intro x hx hxid
          apply hnd1
          have hmem : x.id ∈ rest.map (fun e => e.id) :=
            List.mem_map_of_mem _ hx
          rw [hid, ← hxid]
          exact hmem
        rw [if_pos he, map_mergeBudget_of_not_mem id u rest hrest]
      · simp only [updateBudgetById, if_neg he] at h
        cases hrest : updateBudgetById id u rest with
        | none => rw [hrest] at h; exact absurd h (by simp)
        | some zs =>
            rw [hrest] at h
            simp only [Option.map_some'] at h
            injection h with h
            subst h
            rw [if_neg he, ih zs hnd2 hrest]

theorem updatePaymentMethodById_eq_none (id : String) (u : PaymentMethodPatch)
    (xs : List PaymentMethodConfig) (h : ∀ e ∈ xs, e.id ≠ id) :
    updatePaymentMethodById id u xs = none := by
  induction xs with
  | nil => rfl
  | cons e rest ih =>
      have he : (e.id == id) = false := by
        simp [h e (List.mem_cons_self e rest)]
      simp [updatePaymentMethodById, he, ih (fun x hx => h x (List.mem_cons_of_mem e hx))]

theorem map_mergePaymentMethod_of_not_mem (id : String) (u : PaymentMethodPatch)
    (xs : List PaymentMethodConfig) (h : ∀ e ∈ xs, e.id ≠ id) :
    xs.map (fun e => if e.id == id then mergePaymentMethod e u else e) = xs := by
  induction xs with
  | nil => rfl
  | cons e rest ih =>
      have he : ¬ (e.id == id) = true := by
        simp [h e (List.mem_cons_self e rest)]
      rw [List.map_cons, if_neg he,
        ih (fun x hx => h x (List.mem_cons_of_mem e hx))]

theorem map_mergePaymentMethod_of_updateById_some (id : String) (u : PaymentMethodPatch)
    (xs ys : List PaymentMethodConfig) (hnd : (xs.map (fun e => e.id)).Nodup)
    (h : updatePaymentMethodById id u xs = some ys) :
    xs.map (fun e => if e.id == id then mergePaymentMethod e u else e) = ys := by
  induction xs generalizing ys with
  | nil => simp [updatePaymentMethodById] at h
  | cons e rest ih =>
      rw [List.map_cons] at hnd
      have hnd1 := (List.nodup_cons.mp hnd).1
      have hnd2 := (List.nodup_cons.mp hnd).2
      rw [List.map_cons]
      by_cases he : (e.id == id) = true
      · have hid : e.id = id := by simpa using he
        simp only [updatePaymentMethodById, if_pos he] at h
        injection h with h
        subst h
        have hrest : ∀ x ∈ rest, x.id ≠ id := by
          intro x hx hxid
          apply hnd1
          have hmem : x.id ∈ rest.map (fun e => e.id) :=
            List.mem_map_of_mem _ hx
          rw [hid, ← hxid]
          exact hmem
        rw [if_pos he, map_mergePaymentMethod_of_not_mem id u rest hrest]
      · simp only [updatePaymentMethodById, if_neg he] at h
        cases hrest : updatePaymentMethodById id u rest with
        | none => rw [hrest] at h; exact absurd h (by simp)
        | some zs =>
            rw [hrest] at h
            simp only [Option.map_some'] at h
            injection h with h
            subst h
            rw [if_neg he, ih zs hnd2 hrest]

theorem updateBudgetCategoryById_eq_none (id : String) (u : BudgetCategoryPatch)
    (xs : List BudgetCategory) (h : ∀ e ∈ xs, e.id ≠ id) :
    updateBudgetCategoryById id u xs = none := by
  induction xs with
  | nil => rfl
  | cons e rest ih =>
      have he : (e.id == id) = false := by
        simp [h e (List.mem_cons_self e rest)]
      simp [updateBudgetCategoryById, he, ih (fun x hx => h x (List.mem_cons_of_mem e hx))]

theorem map_mergeBudgetCategory_of_not_mem (id : String) (u : BudgetCategoryPatch)
    (xs : List BudgetCategory) (h : ∀ e ∈ xs, e.id ≠ id) :
    xs.map (fun e => if e.id == id then mergeBudgetCategory e u else e) = xs := by
  induction xs with
  | nil => rfl
  | cons e rest ih =>
      have he : ¬ (e.id == id) = true := by
        simp [h e (List.mem_cons_self e rest)]
      rw [List.map_cons, if_neg he,
        ih (fun x hx => h x (List.mem_cons_of_mem e hx))]

theorem map_mergeBudgetCategory_of_updateById_some (id : String) (u : BudgetCategoryPatch)
    (xs ys : List BudgetCategory) (hnd : (xs.map (fun e => e.id)).Nodup)
    (h : updateBudgetCategoryById id u xs = some ys) :
    xs.map (fun e => if e.id == id then mergeBudgetCategory e u else e) = ys := by
  induction xs generalizing ys with
  | nil => simp [updateBudgetCategoryById] at h
  | cons e rest ih =>
      rw [List.map_cons] at hnd
      have hnd1 := (List.nodup_cons.mp hnd).1
      have hnd2 := (List.nodup_cons.mp hnd).2
      rw [List.map_cons]
      by_cases he : (e.id == id) = true
      · have hid : e.id = id := by simpa using he
        simp only [updateBudgetCategoryById, if_pos he] at h
        injection h with h
        subst h
        have hrest : ∀ x ∈ rest, x.id ≠ id := by
          intro x hx hxid
          apply hnd1
          have hmem : x.id ∈ rest.map (fun e => e.id) :=
            List.mem_map_of_mem _ hx
          rw [hid, ← hxid]
          exact hmem
        rw [if_pos he, map_mergeBudgetCategory_of_not_mem id u rest hrest]
      · simp only [updateBudgetCategoryById, if_neg he] at h
        cases hrest : updateBudgetCategoryById id u rest with
        | none => rw [hrest] at h; exact absurd h (by simp)
        | some zs =>
            rw [hrest] at h
            simp only [Option.map_some'] at h
            injection h with h
            subst h
            rw [if_neg he, ih zs hnd2 hrest]

/-! ### Further shared helper lemmas -/

theorem Storage.avail_cases (st : Storage) :
    (st.hasWindow = true ∧ st.hasLocalStorage = true) ∨
      (st.hasWindow = false ∨ st.hasLocalStorage = false) := by
  cases hw : st.hasWindow <;> cases hl : st.hasLocalStorage <;> simp

theorem expenseStorage.save_save (st : Storage) (xs ys : List Expense) :
    expenseStorage.save (expenseStorage.save st xs) ys =
      expenseStorage.save st ys := by
  unfold expenseStorage.save
  by_cases h : (!st.hasWindow || !st.hasLocalStorage) = true
  · simp [h]
  · simp only [h, if_neg, Bool.false_eq_true, Storage.setItem_hasWindow,
      Storage.setItem_hasLocalStorage, if_false]
    exact Storage.setItem_setItem st _ _ _

theorem filter_bne_idem (id : String) (l : List Expense) :
    ((l.filter (fun e => e.id != id)).filter (fun e => e.id != id)) =
      l.filter (fun e => e.id != id) := by
  simp [List.filter_filter]

theorem expenseStorage.delete_idem (st : Storage) (id : String) :
    expenseStorage.delete (expenseStorage.delete st id) id =
      expenseStorage.delete st id := by
  rcases Storage.avail_cases st with ⟨hw, hl⟩ | h
  · show expenseStorage.save (expenseStorage.delete st id)
        ((expenseStorage.getAll (expenseStorage.delete st id)).filter
          (fun e => e.id != id)) = expenseStorage.delete st id
    rw [expenseStorage.getAll_deleteExp st id hw hl, filter_bne_idem]
    exact expenseStorage.save_save st _ _
  · have h1 : expenseStorage.delete st id = st :=
      expenseStorage.save_unavailableExp _ _ h
    rw [h1]
    exact h1

theorem expenseStorage.getAll_delete_unavailable (st : Storage) (id : String)
    (h : st.hasWindow = false ∨ st.hasLocalStorage = false) :
    expenseStorage.getAll (expenseStorage.delete st id) = [] := by
  have hflags := expenseStorage.delete_preservesExp st id
  apply expenseStorage.getAll_unavailableExp
  rcases h with h | h
  · left; rw [hflags.1]; exact h
  · right; rw [hflags.2.1]; exact h

/-- The claim's field-by-field reading of a merge patch: every supplied
field takes the patch's value, every absent field keeps the old value. -/
def patchSpec (e : Expense) (u : ExpensePatch) (e2 : Expense) : Prop :=
  (∀ v, u.id = some v → e2.id = v) ∧ (u.id = none → e2.id = e.id) ∧
  (∀ v, u.amount = some v → e2.amount = v) ∧
  (u.amount = none → e2.amount = e.amount) ∧
  (∀ v, u.category = some v → e2.category = v) ∧
  (u.category = none → e2.category = e.category) ∧
  (∀ v, u.paymentMethod = some v → e2.paymentMethod = v) ∧
  (u.paymentMethod = none → e2.paymentMethod = e.paymentMethod) ∧
  (∀ v, u.description = some v → e2.description = v) ∧
  (u.description = none → e2.description = e.description) ∧
  (∀ v, u.date = some v → e2.date = v) ∧
  (u.date = none → e2.date = e.date) ∧
  (∀ v, u.createdAt = some v → e2.createdAt = v) ∧
  (u.createdAt = none → e2.createdAt = e.createdAt)

theorem patchSpec_mergeExpense (e : Expense) (u : ExpensePatch) :
    patchSpec e u (mergeExpense e u) := by
  refine ⟨fun v hv => ?_, fun hv => ?_, fun v hv => ?_, fun hv => ?_,
    fun v hv => ?_, fun hv => ?_, fun v hv => ?_, fun hv => ?_,
    fun v hv => ?_, fun hv => ?_, fun v hv => ?_, fun hv => ?_,
    fun v hv => ?_, fun hv => ?_⟩ <;> simp [mergeExpense, hv]

/-! ### Claim theorems and witnesses -/

/-- C1: for every state and every category and month, the category total is
the sum of the amounts of exactly the current expenses whose category
matches and whose date starts with the month, and it is 0 when no such
expense exists. -/
theorem getCategoryTotalByMonth_spec (s : StoreState) (category month : String) :
    getCategoryTotalByMonth s category month =
      ((s.expenses.filter
          (fun e => e.category == category && strStartsWith e.date month)).map
        (fun e => e.amount)).sum ∧
    ((∀ e ∈ s.expenses,
        ¬(e.category = category ∧ strStartsWith e.date month = true)) →
      getCategoryTotalByMonth s category month = 0) := by
  have hmain : getCategoryTotalByMonth s category month =
      ((s.expenses.filter
          (fun e => e.category == category && strStartsWith e.date month)).map
        (fun e => e.amount)).sum := by
    unfold getCategoryTotalByMonth getExpensesByMonth
    rw [List.filter_filter, foldl_add_amount]
    simp
  refine ⟨hmain, fun h => ?_⟩
  rw [hmain]
  have hnil : s.expenses.filter
      (fun e => e.category == category && strStartsWith e.date month) = [] := by
    rw [List.filter_eq_nil_iff]
    intro e he
    have hne := h e he
    simp only [Bool.and_eq_true, beq_iff_eq, not_and]
    intro h1 h2
    exact hne ⟨h1, h2⟩
  rw [hnil]
  rfl

/-- Store holding one expense in another category and month: no expense
matches the query of the C1 witness. -/
def sNoMatch : StoreState :=
  ⟨[⟨"e1", 100, "toys", "cash", "", "2024-02-10", "t"⟩], [], [], []⟩

theorem getCategoryTotalByMonth_spec_witness :
    getCategoryTotalByMonth sNoMatch "food" "2024-01" = 0 :=
  (getCategoryTotalByMonth_spec sNoMatch "food" "2024-01").2 (by decide)

/-- C2: no budget for the category and month means never exceeded; with a
budget found for the pair, exceeded holds exactly when the category total
strictly exceeds that budget's amount (equality is not exceeded). -/
theorem isBudgetExceeded_spec (s : StoreState) (category month : String) :
    ((∀ b ∈ s.budgets, ¬(b.category = category ∧ b.month = month)) →
      isBudgetExceeded s category month = false) ∧
    (∀ budget,
      (getBudgetsByMonth s month).find? (fun b => b.category == category) =
        some budget →
      (isBudgetExceeded s category month = true ↔
        getCategoryTotalByMonth s category month > budget.amount)) := by
  constructor
  · intro h
    unfold isBudgetExceeded
    have hnone : (getBudgetsByMonth s month).find?
        (fun b => b.category == category) = none := by
      rw [List.find?_eq_none]
      intro b hb
      unfold getBudgetsByMonth at hb
      rw [List.mem_filter] at hb
      have hm : b.month = month := by simpa using hb.2
      simp only [beq_iff_eq]
      exact fun hc => h b hb.1 ⟨hc, hm⟩
    rw [hnone]
  · intro budget hfind
    unfold isBudgetExceeded
    rw [hfind]
    simp [decide_eq_true_iff]

/-- The budget record of the C2 witness scenario. -/
def bFood : Budget :=
  ⟨"b1", "food", 50000, "2024-01", "t0"⟩

/-- Store of the specification's worked scenario: a 50000 budget for food
in January and two food expenses of 30000 and 25000 in that month. -/
def sScenario : StoreState :=
  ⟨[⟨"e1", 30000, "food", "cash", "", "2024-01-05", "t1"⟩,
    ⟨"e2", 25000, "food", "cash", "", "2024-01-20", "t2"⟩],
   [bFood], [], []⟩

theorem isBudgetExceeded_spec_witness :
    isBudgetExceeded sScenario "food" "2024-01" = true :=
  ((isBudgetExceeded_spec sScenario "food" "2024-01").2 bFood
    (by decide)).mpr (by decide)

/-- C3: adding a valid expense and then querying its month returns exactly
one record equal to the input extended with the generated id and creation
timestamp (given that the generated id is fresh and the queried month is
the date's year-month prefix). -/
theorem addExpense_getExpensesByMonth_spec (w : World) (d : ExpenseInput)
    (freshId now month : String)
    (hpos : 0 < d.amount)
    (hfresh : ∀ e ∈ w.store.expenses, e.id ≠ freshId)
    (hmonth : strStartsWith d.date month = true) :
    (getExpensesByMonth (addExpense w d freshId now).store month).countP
      (fun e => decide (e = mkExpense d freshId now)) = 1 := by
  have hamount : 0 < d.amount := hpos
  unfold getExpensesByMonth
  have hexp : (addExpense w d freshId now).store.expenses =
      w.store.expenses ++ [mkExpense d freshId now] := rfl
  rw [hexp, List.filter_append, List.countP_append]
  have h0 : (w.store.expenses.filter
      (fun e => strStartsWith e.date month)).countP
      (fun e => decide (e = mkExpense d freshId now)) = 0 := by
    rw [List.countP_eq_zero]
    intro e he
    rw [List.mem_filter] at he
    have hne := hfresh e he.1
    simp only [decide_eq_true_iff]
    intro heq
    apply hne
    rw [heq]
    rfl
  have h1 : ([mkExpense d freshId now].filter
      (fun e => strStartsWith e.date month)) = [mkExpense d freshId now] := by
    simp [mkExpense, hmonth]
  rw [h0, h1]
  simp

/-- Fresh world for the C3 witness: empty store, available empty storage. -/
def wEmpty : World :=
  ⟨⟨[], [], [], []⟩, ⟨true, true, fun _ => none⟩⟩

/-- Input of the C3 witness. -/
def dLunch : ExpenseInput :=
  ⟨1200, "food", "cash", "lunch", "2024-01-15"⟩

theorem addExpense_getExpensesByMonth_spec_witness :
    (getExpensesByMonth (addExpense wEmpty dLunch "id1" "ts").store
      "2024-01").countP
      (fun e => decide (e = mkExpense dLunch "id1" "ts")) = 1 :=
  addExpense_getExpensesByMonth_spec wEmpty dLunch "id1" "ts" "2024-01"
    (by decide) (by decide) (by decide)

/-- C5: on an available storage, saving a collection and reading the same
collection key back returns exactly the saved records, for all four
collection keys. -/
theorem saveAll_getAll_roundtrip (st : Storage)
    (hw : st.hasWindow = true) (hl : st.hasLocalStorage = true)
    (es : List Expense) (bs : List Budget)
    (ps : List PaymentMethodConfig) (cs : List BudgetCategory) :
    expenseStorage.getAll (expenseStorage.save st es) = es ∧
    budgetStorage.getAll (budgetStorage.save st bs) = bs ∧
    paymentMethodStorage.getAll (paymentMethodStorage.save st ps) = ps ∧
    budgetCategoryStorage.getAll (budgetCategoryStorage.save st cs) = cs :=
  ⟨expenseStorage.getAll_saveExp st es hw hl,
   budgetStorage.getAll_saveBud st bs hw hl,
   paymentMethodStorage.getAll_savePm st ps hw hl,
   budgetCategoryStorage.getAll_saveCat st cs hw hl⟩

/-- Available storage with nothing stored yet, for witnesses. -/
def stFresh : Storage :=
  ⟨true, true, fun _ => none⟩

/-- Sample records for the C5 witness; the payment method has a mix of
present and absent optional fields. -/
def expSample : Expense :=
  ⟨"e9", 800, "food", "cash", "coffee", "2024-03-02", "t9"⟩

def budSample : Budget :=
  ⟨"b9", "food", 40000, "2024-03", "t9"⟩

def pmSample : PaymentMethodConfig :=
  ⟨"p9", "credit", 120000, some 500000, some 27, none⟩

def catSample : BudgetCategory :=
  ⟨"c9", "food", "t9"⟩

theorem saveAll_getAll_roundtrip_witness :
    expenseStorage.getAll (expenseStorage.save stFresh [expSample]) =
      [expSample] ∧
    budgetStorage.getAll (budgetStorage.save stFresh [budSample]) =
      [budSample] ∧
    paymentMethodStorage.getAll (paymentMethodStorage.save stFresh
      [pmSample]) = [pmSample] ∧
    budgetCategoryStorage.getAll (budgetCategoryStorage.save stFresh
      [catSample]) = [catSample] :=
  saveAll_getAll_roundtrip stFresh rfl rfl [expSample] [budSample]
    [pmSample] [catSample]

/-- C6: after a delete no query sees an expense with that id, in memory or
through storage; deleting the same id again changes nothing (idempotent);
and deleting an id that is absent from memory and storage is a no-op on the
observable state. -/
theorem deleteExpense_spec (w : World) (id : String) :
    (∀ e ∈ (deleteExpense w id).store.expenses, e.id ≠ id) ∧
    (∀ e ∈ expenseStorage.getAll (deleteExpense w id).storage, e.id ≠ id) ∧
    deleteExpense (deleteExpense w id) id = deleteExpense w id ∧
    ((∀ e ∈ w.store.expenses, e.id ≠ id) →
      (∀ e ∈ expenseStorage.getAll w.storage, e.id ≠ id) →
      (deleteExpense w id).store.expenses = w.store.expenses ∧
      expenseStorage.getAll (deleteExpense w id).storage =
        expenseStorage.getAll w.storage) := by
  have hdefst : (deleteExpense w id).storage =
      expenseStorage.delete w.storage id := rfl
  refine ⟨?_, ?_, ?_, ?_⟩
  · intro e he
    have hf : e ∈ w.store.expenses.filter (fun x => x.id != id) := he
    rw [List.mem_filter] at hf
    simpa using hf.2
  · intro e he
    rcases Storage.avail_cases w.storage with ⟨hw, hl⟩ | h
    · rw [hdefst, expenseStorage.getAll_deleteExp _ _ hw hl,
        List.mem_filter] at he
      simpa using he.2
    · rw [hdefst, expenseStorage.getAll_delete_unavailable _ _ h] at he
      simp at he
  · show World.mk
        (StoreState.mk
          ((w.store.expenses.filter (fun e => e.id != id)).filter
            (fun e => e.id != id))
          w.store.budgets w.store.paymentMethods w.store.budgetCategories)
        (expenseStorage.delete (expenseStorage.delete w.storage id) id) =
      World.mk
        (StoreState.mk (w.store.expenses.filter (fun e => e.id != id))
          w.store.budgets w.store.paymentMethods w.store.budgetCategories)
        (expenseStorage.delete w.storage id)
    rw [filter_bne_idem, expenseStorage.delete_idem]
  · intro hmem hstore
    constructor
    · apply List.filter_eq_self.mpr
      intro e he
      simpa using hmem e he
    · rcases Storage.avail_cases w.storage with ⟨hw, hl⟩ | h
      · rw [hdefst, expenseStorage.getAll_deleteExp _ _ hw hl]
        apply List.filter_eq_self.mpr
        intro e he
        simpa using hstore e he
      · rw [hdefst, expenseStorage.getAll_delete_unavailable _ _ h,
          expenseStorage.getAll_unavailableExp w.storage h]

/-- World with one expense of id y, for the no-op witnesses. -/
def wOneExpense : World :=
  ⟨⟨[⟨"y", 5, "food", "cash", "", "2024-01-01", "t"⟩], [], [], []⟩,
   ⟨true, true, fun _ => none⟩⟩

theorem deleteExpense_spec_witness :
    (deleteExpense wOneExpense "x").store.expenses =
      wOneExpense.store.expenses ∧
    expenseStorage.getAll (deleteExpense wOneExpense "x").storage =
      expenseStorage.getAll wOneExpense.storage :=
  (deleteExpense_spec wOneExpense "x").2.2.2 (by decide) (by decide)

/-- C7: updating patches the records positionally, field by field: an id
match is merge-patched (supplied fields overwritten, absent fields kept)
and a non-match is untouched; updating an id absent from memory and
storage leaves the whole state unchanged. -/
theorem updateExpense_merge_patch_spec (w : World) (id : String)
    (u : ExpensePatch) :
    List.Forall₂
      (fun e e2 => (e.id = id → patchSpec e u e2) ∧ (e.id ≠ id → e2 = e))
      w.store.expenses (updateExpense w id u).store.expenses ∧
    ((∀ e ∈ w.store.expenses, e.id ≠ id) →
      (∀ e ∈ expenseStorage.getAll w.storage, e.id ≠ id) →
      updateExpense w id u = w) := by
  constructor
  · have hrw : (updateExpense w id u).store.expenses =
        w.store.expenses.map
          (fun e => if e.id == id then mergeExpense e u else e) := rfl
    rw [hrw, List.forall₂_map_right_iff, List.forall₂_same]
    intro e he
    constructor
    · intro hid
      have hb : (e.id == id) = true := by simpa using hid
      rw [if_pos hb]
      exact patchSpec_mergeExpense e u
    · intro hid
      rw [if_neg (by simpa using hid)]
  · intro hmem hstore
    have h2 : expenseStorage.update w.storage id u = w.storage := by
      unfold expenseStorage.update
      rw [updateExpenseById_eq_none id u _ hstore]
    show World.mk
        (StoreState.mk
          (w.store.expenses.map
            (fun e => if e.id == id then mergeExpense e u else e))
          w.store.budgets w.store.paymentMethods w.store.budgetCategories)
        (expenseStorage.update w.storage id u) = w
    rw [map_mergeExpense_of_not_mem id u _ hmem, h2]

/-- Patch used by the C7 witness. -/
def patchAmount : ExpensePatch :=
  { amount := some 10 }

theorem updateExpense_merge_patch_spec_witness :
    updateExpense wOneExpense "x" patchAmount = wOneExpense :=
  (updateExpense_merge_patch_spec wOneExpense "x" patchAmount).2
    (by decide) (by decide)

theorem find?_filter {α : Type} (p q : α → Bool) (l : List α) :
    (l.filter p).find? q = l.find? (fun a => q a && p a) := by
  induction l with
  | nil => rfl
  | cons x xs ih =>
      cases hp : p x <;> cases hq : q x <;>
        simp [List.filter_cons, hp, hq, ih]

theorem find?_append_first {α : Type} (q : α → Bool) (l1 l2 : List α) (b : α)
    (hb : q b = true) (hfirst : ∀ x ∈ l1, ¬ q x = true) :
    (l1 ++ b :: l2).find? q = some b := by
  induction l1 with
  | nil => exact List.find?_cons_of_pos _ hb
  | cons x xs ih =>
      rw [List.cons_append,
        List.find?_cons_of_neg _ (hfirst x (List.mem_cons_self x xs))]
      exact ih (fun y hy => hfirst y (List.mem_cons_of_mem x hy))

/-- C10: when several budgets share the category and month, the overrun
check compares against the amount of the earliest-inserted matching budget
only: for any split of the budgets into earlier non-matching records, a
matching record, and an arbitrary remainder, the comparison uses that
matching record's amount. -/
theorem isBudgetExceeded_first_budget_spec (s : StoreState)
    (category month : String) (l1 l2 : List Budget) (budget : Budget)
    (hsplit : s.budgets = l1 ++ budget :: l2)
    (hmatch : budget.category = category ∧ budget.month = month)
    (hfirst : ∀ b ∈ l1, ¬(b.category = category ∧ b.month = month)) :
    (isBudgetExceeded s category month = true ↔
      getCategoryTotalByMonth s category month > budget.amount) := by
  have hfind : s.budgets.find?
      (fun b => b.category == category && b.month == month) = some budget := by
    rw [hsplit]
    apply find?_append_first
    · simp [hmatch.1, hmatch.2]
    · intro x hx
      have hne := hfirst x hx
      simp only [Bool.and_eq_true, beq_iff_eq]
      exact fun hh => hne hh
  unfold isBudgetExceeded getBudgetsByMonth
  rw [find?_filter, hfind]
  simp [decide_eq_true_iff]

/-- Earliest-inserted budget of the C10 witness: 50000 for food in
January. -/
def bFood50 : Budget :=
  ⟨"b50", "food", 50000, "2024-01", "t1"⟩

/-- Later duplicate budget for the same pair with a lower amount. -/
def bFood40 : Budget :=
  ⟨"b40", "food", 40000, "2024-01", "t2"⟩

/-- Store with duplicate budgets for (food, 2024-01) and 45000 of food
expenses: above the later 40000 budget but not above the first 50000. -/
def sDupBudgets : StoreState :=
  ⟨[⟨"e1", 45000, "food", "cash", "", "2024-01-10", "t3"⟩],
   [bFood50, bFood40], [], []⟩

theorem isBudgetExceeded_first_budget_spec_witness :
    (isBudgetExceeded sDupBudgets "food" "2024-01" = true ↔
      getCategoryTotalByMonth sDupBudgets "food" "2024-01" >
        bFood50.amount) :=
  isBudgetExceeded_first_budget_spec sDupBudgets "food" "2024-01" []
    [bFood40] bFood50 (by decide) (by decide) (by decide)

/-! ### Frame helpers: which parts a mutator leaves untouched -/

/-- The expenses collection is untouched, in memory and in storage. -/
def expensesUntouched (w w2 : World) : Prop :=
  w2.store.expenses = w.store.expenses ∧
  w2.storage.data STORAGE_KEYS.expenses = w.storage.data STORAGE_KEYS.expenses

/-- The budgets collection is untouched, in memory and in storage. -/
def budgetsUntouched (w w2 : World) : Prop :=
  w2.store.budgets = w.store.budgets ∧
  w2.storage.data STORAGE_KEYS.budgets = w.storage.data STORAGE_KEYS.budgets

/-- The payment methods collection is untouched, in memory and storage. -/
def paymentMethodsUntouched (w w2 : World) : Prop :=
  w2.store.paymentMethods = w.store.paymentMethods ∧
  w2.storage.data STORAGE_KEYS.paymentMethods =
    w.storage.data STORAGE_KEYS.paymentMethods

/-- The budget categories collection is untouched, in memory and storage. -/
def budgetCategoriesUntouched (w w2 : World) : Prop :=
  w2.store.budgetCategories = w.store.budgetCategories ∧
  w2.storage.data STORAGE_KEYS.budgetCategories =
    w.storage.data STORAGE_KEYS.budgetCategories

theorem addExpense_frames (w : World) (d : ExpenseInput) (i n : String) :
    budgetsUntouched w (addExpense w d i n) ∧
    paymentMethodsUntouched w (addExpense w d i n) ∧
    budgetCategoriesUntouched w (addExpense w d i n) := by
  have hp := expenseStorage.add_preservesExp w.storage (mkExpense d i n)
  exact ⟨⟨rfl, hp.2.2 _ (by decide)⟩, ⟨rfl, hp.2.2 _ (by decide)⟩,
    ⟨rfl, hp.2.2 _ (by decide)⟩⟩

theorem updateExpense_frames (w : World) (id : String) (u : ExpensePatch) :
    budgetsUntouched w (updateExpense w id u) ∧
    paymentMethodsUntouched w (updateExpense w id u) ∧
    budgetCategoriesUntouched w (updateExpense w id u) := by
  have hp := expenseStorage.update_preservesExp w.storage id u
  exact ⟨⟨rfl, hp.2.2 _ (by decide)⟩, ⟨rfl, hp.2.2 _ (by decide)⟩,
    ⟨rfl, hp.2.2 _ (by decide)⟩⟩

theorem deleteExpense_frames (w : World) (id : String) :
    budgetsUntouched w (deleteExpense w id) ∧
    paymentMethodsUntouched w (deleteExpense w id) ∧
    budgetCategoriesUntouched w (deleteExpense w id) := by
  have hp := expenseStorage.delete_preservesExp w.storage id
  exact ⟨⟨rfl, hp.2.2 _ (by decide)⟩, ⟨rfl, hp.2.2 _ (by decide)⟩,
    ⟨rfl, hp.2.2 _ (by decide)⟩⟩

theorem addBudget_frames (w : World) (d : BudgetInput) (i n : String) :
    expensesUntouched w (addBudget w d i n) ∧
    paymentMethodsUntouched w (addBudget w d i n) ∧
    budgetCategoriesUntouched w (addBudget w d i n) := by
  have hp := budgetStorage.add_preservesBud w.storage (mkBudget d i n)
  exact ⟨⟨rfl, hp.2.2 _ (by decide)⟩, ⟨rfl, hp.2.2 _ (by decide)⟩,
    ⟨rfl, hp.2.2 _ (by decide)⟩⟩

theorem updateBudget_frames (w : World) (id : String) (u : BudgetPatch) :
    expensesUntouched w (updateBudget w id u) ∧
    paymentMethodsUntouched w (updateBudget w id u) ∧
    budgetCategoriesUntouched w (updateBudget w id u) := by
  have hp := budgetStorage.update_preservesBud w.storage id u
  exact ⟨⟨rfl, hp.2.2 _ (by decide)⟩, ⟨rfl, hp.2.2 _ (by decide)⟩,
    ⟨rfl, hp.2.2 _ (by decide)⟩⟩

theorem deleteBudget_frames (w : World) (id : String) :
    expensesUntouched w (deleteBudget w id) ∧
    paymentMethodsUntouched w (deleteBudget w id) ∧
    budgetCategoriesUntouched w (deleteBudget w id) := by
  have hp := budgetStorage.delete_preservesBud w.storage id
  exact ⟨⟨rfl, hp.2.2 _ (by decide)⟩, ⟨rfl, hp.2.2 _ (by decide)⟩,
    ⟨rfl, hp.2.2 _ (by decide)⟩⟩

theorem addPaymentMethod_frames (w : World) (d : PaymentMethodInput)
    (i : String) :
    expensesUntouched w (addPaymentMethod w d i) ∧
    budgetsUntouched w (addPaymentMethod w d i) ∧
    budgetCategoriesUntouched w (addPaymentMethod w d i) := by
  have hp := paymentMethodStorage.add_preservesPm w.storage
    (mkPaymentMethod d i)
  exact ⟨⟨rfl, hp.2.2 _ (by decide)⟩, ⟨rfl, hp.2.2 _ (by decide)⟩,
    ⟨rfl, hp.2.2 _ (by decide)⟩⟩

theorem updatePaymentMethod_frames (w : World) (id : String)
    (u : PaymentMethodPatch) :
    expensesUntouched w (updatePaymentMethod w id u) ∧
    budgetsUntouched w (updatePaymentMethod w id u) ∧
    budgetCategoriesUntouched w (updatePaymentMethod w id u) := by
  have hp := paymentMethodStorage.update_preservesPm w.storage id u
  exact ⟨⟨rfl, hp.2.2 _ (by decide)⟩, ⟨rfl, hp.2.2 _ (by decide)⟩,
    ⟨rfl, hp.2.2 _ (by decide)⟩⟩

theorem deletePaymentMethod_frames (w : World) (id : String) :
    expensesUntouched w (deletePaymentMethod w id) ∧
    budgetsUntouched w (deletePaymentMethod w id) ∧
    budgetCategoriesUntouched w (deletePaymentMethod w id) := by
  have hp := paymentMethodStorage.delete_preservesPm w.storage id
  exact ⟨⟨rfl, hp.2.2 _ (by decide)⟩, ⟨rfl, hp.2.2 _ (by decide)⟩,
    ⟨rfl, hp.2.2 _ (by decide)⟩⟩

theorem addBudgetCategory_frames (w : World) (d : BudgetCategoryInput)
    (i n : String) :
    expensesUntouched w (addBudgetCategory w d i n) ∧
    budgetsUntouched w (addBudgetCategory w d i n) ∧
    paymentMethodsUntouched w (addBudgetCategory w d i n) := by
  have hp := budgetCategoryStorage.add_preservesCat w.storage
    (mkBudgetCategory d i n)
  exact ⟨⟨rfl, hp.2.2 _ (by decide)⟩, ⟨rfl, hp.2.2 _ (by decide)⟩,
    ⟨rfl, hp.2.2 _ (by decide)⟩⟩

theorem updateBudgetCategory_frames (w : World) (id : String)
    (u : BudgetCategoryPatch) :
    expensesUntouched w (updateBudgetCategory w id u) ∧
    budgetsUntouched w (updateBudgetCategory w id u) ∧
    paymentMethodsUntouched w (updateBudgetCategory w id u) := by
  have hp := budgetCategoryStorage.update_preservesCat w.storage id u
  exact ⟨⟨rfl, hp.2.2 _ (by decide)⟩, ⟨rfl, hp.2.2 _ (by decide)⟩,
    ⟨rfl, hp.2.2 _ (by decide)⟩⟩

theorem deleteBudgetCategory_frames (w : World) (id : String) :
    expensesUntouched w (deleteBudgetCategory w id) ∧
    budgetsUntouched w (deleteBudgetCategory w id) ∧
    paymentMethodsUntouched w (deleteBudgetCategory w id) := by
  have hp := budgetCategoryStorage.delete_preservesCat w.storage id
  exact ⟨⟨rfl, hp.2.2 _ (by decide)⟩, ⟨rfl, hp.2.2 _ (by decide)⟩,
    ⟨rfl, hp.2.2 _ (by decide)⟩⟩

/-- C9: every mutator touches only its own collection: the other three
collections are unchanged in memory, and the stored values under the other
three distinct collection keys are unchanged, for all twelve mutators. -/
theorem mutators_frame_spec (w : World) (dE : ExpenseInput)
    (uE : ExpensePatch) (dB : BudgetInput) (uB : BudgetPatch)
    (dP : PaymentMethodInput) (uP : PaymentMethodPatch)
    (dC : BudgetCategoryInput) (uC : BudgetCategoryPatch)
    (id freshId now : String) :
    (budgetsUntouched w (addExpense w dE freshId now) ∧
      paymentMethodsUntouched w (addExpense w dE freshId now) ∧
      budgetCategoriesUntouched w (addExpense w dE freshId now)) ∧
    (budgetsUntouched w (updateExpense w id uE) ∧
      paymentMethodsUntouched w (updateExpense w id uE) ∧
      budgetCategoriesUntouched w (updateExpense w id uE)) ∧
    (budgetsUntouched w (deleteExpense w id) ∧
      paymentMethodsUntouched w (deleteExpense w id) ∧
      budgetCategoriesUntouched w (deleteExpense w id)) ∧
    (expensesUntouched w (addBudget w dB freshId now) ∧
      paymentMethodsUntouched w (addBudget w dB freshId now) ∧
      budgetCategoriesUntouched w (addBudget w dB freshId now)) ∧
    (expensesUntouched w (updateBudget w id uB) ∧
      paymentMethodsUntouched w (updateBudget w id uB) ∧
      budgetCategoriesUntouched w (updateBudget w id uB)) ∧
    (expensesUntouched w (deleteBudget w id) ∧
      paymentMethodsUntouched w (deleteBudget w id) ∧
      budgetCategoriesUntouched w (deleteBudget w id)) ∧
    (expensesUntouched w (addPaymentMethod w dP freshId) ∧
      budgetsUntouched w (addPaymentMethod w dP freshId) ∧
      budgetCategoriesUntouched w (addPaymentMethod w dP freshId)) ∧
    (expensesUntouched w (updatePaymentMethod w id uP) ∧
      budgetsUntouched w (updatePaymentMethod w id uP) ∧
      budgetCategoriesUntouched w (updatePaymentMethod w id uP)) ∧
    (expensesUntouched w (deletePaymentMethod w id) ∧
      budgetsUntouched w (deletePaymentMethod w id) ∧
      budgetCategoriesUntouched w (deletePaymentMethod w id)) ∧
    (expensesUntouched w (addBudgetCategory w dC freshId now) ∧
      budgetsUntouched w (addBudgetCategory w dC freshId now) ∧
      paymentMethodsUntouched w (addBudgetCategory w dC freshId now)) ∧
    (expensesUntouched w (updateBudgetCategory w id uC) ∧
      budgetsUntouched w (updateBudgetCategory w id uC) ∧
      paymentMethodsUntouched w (updateBudgetCategory w id uC)) ∧
    (expensesUntouched w (deleteBudgetCategory w id) ∧
      budgetsUntouched w (deleteBudgetCategory w id) ∧
      paymentMethodsUntouched w (deleteBudgetCategory w id)) :=
  ⟨addExpense_frames w dE freshId now,
   updateExpense_frames w id uE,
   deleteExpense_frames w id,
   addBudget_frames w dB freshId now,
   updateBudget_frames w id uB,
   deleteBudget_frames w id,
   addPaymentMethod_frames w dP freshId,
   updatePaymentMethod_frames w id uP,
   deletePaymentMethod_frames w id,
   addBudgetCategory_frames w dC freshId now,
   updateBudgetCategory_frames w id uC,
   deleteBudgetCategory_frames w id⟩

/-- World with no window object but a non-empty in-memory expense list:
the counterexample state for the unavailability claim. -/
def wNoWindow : World :=
  ⟨⟨[⟨"e1", 7, "food", "cash", "", "2024-01-02", "t"⟩], [], [], []⟩,
   ⟨false, true, fun _ => none⟩⟩

/-- C8 counterexample: with persistence unavailable (no window) the store
initializer returns early and leaves a non-empty in-memory collection in
place, so it does not yield empty collections. -/
theorem storeInit_unavailable_counterexample :
    wNoWindow.storage.hasWindow = false ∧
    expenseStorage.getAll wNoWindow.storage = [] ∧
    (initializeStore wNoWindow).store.expenses ≠ [] := by decide

/-- C8 (amended): with persistence unavailable, every read returns the
empty collection; the initializer leaves the state unchanged when no
window exists and replaces memory by empty collections when a window
exists without local storage; and every mutator performs its in-memory
update while leaving the storage unchanged. -/
theorem storage_unavailable_spec (w : World)
    (h : w.storage.hasWindow = false ∨ w.storage.hasLocalStorage = false)
    (dE : ExpenseInput) (uE : ExpensePatch) (dB : BudgetInput)
    (uB : BudgetPatch) (dP : PaymentMethodInput) (uP : PaymentMethodPatch)
    (dC : BudgetCategoryInput) (uC : BudgetCategoryPatch)
    (id freshId now : String) :
    expenseStorage.getAll w.storage = [] ∧
    budgetStorage.getAll w.storage = [] ∧
    paymentMethodStorage.getAll w.storage = [] ∧
    budgetCategoryStorage.getAll w.storage = [] ∧
    (w.storage.hasWindow = false → initializeStore w = w) ∧
    (w.storage.hasWindow = true → w.storage.hasLocalStorage = false →
      (initializeStore w).store = StoreState.mk [] [] [] []) ∧
    ((addExpense w dE freshId now).store.expenses =
        w.store.expenses ++ [mkExpense dE freshId now] ∧
      (addExpense w dE freshId now).storage = w.storage) ∧
    ((updateExpense w id uE).store.expenses =
        w.store.expenses.map
          (fun e => if e.id == id then mergeExpense e uE else e) ∧
      (updateExpense w id uE).storage = w.storage) ∧
    ((deleteExpense w id).store.expenses =
        w.store.expenses.filter (fun e => e.id != id) ∧
      (deleteExpense w id).storage = w.storage) ∧
    ((addBudget w dB freshId now).store.budgets =
        w.store.budgets ++ [mkBudget dB freshId now] ∧
      (addBudget w dB freshId now).storage = w.storage) ∧
    ((updateBudget w id uB).store.budgets =
        w.store.budgets.map
          (fun b => if b.id == id then mergeBudget b uB else b) ∧
      (updateBudget w id uB).storage = w.storage) ∧
    ((deleteBudget w id).store.budgets =
        w.store.budgets.filter (fun b => b.id != id) ∧
      (deleteBudget w id).storage = w.storage) ∧
    ((addPaymentMethod w dP freshId).store.paymentMethods =
        w.store.paymentMethods ++ [mkPaymentMethod dP freshId] ∧
      (addPaymentMethod w dP freshId).storage = w.storage) ∧
    ((updatePaymentMethod w id uP).store.paymentMethods =
        w.store.paymentMethods.map
          (fun p => if p.id == id then mergePaymentMethod p uP else p) ∧
      (updatePaymentMethod w id uP).storage = w.storage) ∧
    ((deletePaymentMethod w id).store.paymentMethods =
        w.store.paymentMethods.filter (fun p => p.id != id) ∧
      (deletePaymentMethod w id).storage = w.storage) ∧
    ((addBudgetCategory w dC freshId now).store.budgetCategories =
        w.store.budgetCategories ++ [mkBudgetCategory dC freshId now] ∧
      (addBudgetCategory w dC freshId now).storage = w.storage) ∧
    ((updateBudgetCategory w id uC).store.budgetCategories =
        w.store.budgetCategories.map
          (fun c => if c.id == id then mergeBudgetCategory c uC else c) ∧
      (updateBudgetCategory w id uC).storage = w.storage) ∧
    ((deleteBudgetCategory w id).store.budgetCategories =
        w.store.budgetCategories.filter (fun c => c.id != id) ∧
      (deleteBudgetCategory w id).storage = w.storage) := by
  refine ⟨expenseStorage.getAll_unavailableExp _ h,
    budgetStorage.getAll_unavailableBud _ h,
    paymentMethodStorage.getAll_unavailablePm _ h,
    budgetCategoryStorage.getAll_unavailableCat _ h,
    fun hw => ?_, fun hw hl => ?_,
    ⟨rfl, ?_⟩, ⟨rfl, ?_⟩, ⟨rfl, ?_⟩, ⟨rfl, ?_⟩, ⟨rfl, ?_⟩, ⟨rfl, ?_⟩,
    ⟨rfl, ?_⟩, ⟨rfl, ?_⟩, ⟨rfl, ?_⟩, ⟨rfl, ?_⟩, ⟨rfl, ?_⟩, ⟨rfl, ?_⟩⟩
  · simp [initializeStore, hw]
  · simp [initializeStore, hw,
      expenseStorage.getAll_unavailableExp _ (Or.inr hl),
      budgetStorage.getAll_unavailableBud _ (Or.inr hl),
      paymentMethodStorage.getAll_unavailablePm _ (Or.inr hl),
      budgetCategoryStorage.getAll_unavailableCat _ (Or.inr hl)]
  · exact expenseStorage.save_unavailableExp _ _ h
  · show expenseStorage.update w.storage id uE = w.storage
    unfold expenseStorage.update
    rw [expenseStorage.getAll_unavailableExp _ h]
    rfl
  · exact expenseStorage.save_unavailableExp _ _ h
  · exact budgetStorage.save_unavailableBud _ _ h
  · show budgetStorage.update w.storage id uB = w.storage
    unfold budgetStorage.update
    rw [budgetStorage.getAll_unavailableBud _ h]
    rfl
  · exact budgetStorage.save_unavailableBud _ _ h
  · exact paymentMethodStorage.save_unavailablePm _ _ h
  · show paymentMethodStorage.update w.storage id uP = w.storage
    unfold paymentMethodStorage.update
    rw [paymentMethodStorage.getAll_unavailablePm _ h]
    rfl
  · exact paymentMethodStorage.save_unavailablePm _ _ h
  · exact budgetCategoryStorage.save_unavailableCat _ _ h
  · show budgetCategoryStorage.update w.storage id uC = w.storage
    unfold budgetCategoryStorage.update
    rw [budgetCategoryStorage.getAll_unavailableCat _ h]
    rfl
  · exact budgetCategoryStorage.save_unavailableCat _ _ h

/-- World with a window but no local storage, memory non-empty. -/
def wNoLS : World :=
  ⟨⟨[⟨"e1", 7, "food", "cash", "", "2024-01-02", "t"⟩], [], [], []⟩,
   ⟨true, false, fun _ => none⟩⟩

theorem storage_unavailable_spec_witness :
    (initializeStore wNoLS).store = StoreState.mk [] [] [] [] :=
  (storage_unavailable_spec wNoLS (Or.inr rfl) dLunch patchAmount
    ⟨"food", 1, "2024-01"⟩ {} ⟨"cash", 0, none, none, none⟩ {} ⟨"food"⟩ {}
    "e1" "f" "n").2.2.2.2.2.1 rfl rfl

/-! ### Memory-storage synchronization -/

/-- All four in-memory collections agree with what a read of the
corresponding storage key returns. -/
def synced (w : World) : Prop :=
  w.store.expenses = expenseStorage.getAll w.storage ∧
  w.store.budgets = budgetStorage.getAll w.storage ∧
  w.store.paymentMethods = paymentMethodStorage.getAll w.storage ∧
  w.store.budgetCategories = budgetCategoryStorage.getAll w.storage

/-- No two records of a collection share an identifier (what generated
UUIDs provide in practice). -/
def idsNodup (w : World) : Prop :=
  (w.store.expenses.map (fun e => e.id)).Nodup ∧
  (w.store.budgets.map (fun b => b.id)).Nodup ∧
  (w.store.paymentMethods.map (fun p => p.id)).Nodup ∧
  (w.store.budgetCategories.map (fun c => c.id)).Nodup

theorem updateExpenseById_none_forall (id : String) (u : ExpensePatch)
    (xs : List Expense) (h : updateExpenseById id u xs = none) :
    ∀ e ∈ xs, e.id ≠ id := by
  induction xs with
  | nil => intro e he; simp at he
  | cons x rest ih =>
      intro e he
      by_cases hx : (x.id == id) = true
      · simp only [updateExpenseById, if_pos hx] at h
        exact absurd h (by simp)
      · simp only [updateExpenseById, if_neg hx] at h
        have hrest : updateExpenseById id u rest = none := by
          cases hc : updateExpenseById id u rest with
          | none => rfl
          | some zs => rw [hc] at h; simp at h
        rcases List.mem_cons.mp he with rfl | hm
        · simpa using hx
        · exact ih hrest e hm

theorem synced_addExpense (w : World) (hw : w.storage.hasWindow = true)
    (hl : w.storage.hasLocalStorage = true) (hs : synced w)
    (d : ExpenseInput) (i n : String) : synced (addExpense w d i n) := by
  obtain ⟨h1, h2, h3, h4⟩ := hs
  have hp := expenseStorage.add_preservesExp w.storage (mkExpense d i n)
  refine ⟨?_, ?_, ?_, ?_⟩
  · show w.store.expenses ++ [mkExpense d i n] =
      expenseStorage.getAll (expenseStorage.add w.storage (mkExpense d i n))
    rw [expenseStorage.getAll_addExp _ _ hw hl, h1]
  · show w.store.budgets = budgetStorage.getAll
      (expenseStorage.add w.storage (mkExpense d i n))
    rw [budgetStorage.getAll_congrBud w.storage _ hp.1 hp.2.1
      (hp.2.2 _ (by decide))]
    exact h2
  · show w.store.paymentMethods = paymentMethodStorage.getAll
      (expenseStorage.add w.storage (mkExpense d i n))
    rw [paymentMethodStorage.getAll_congrPm w.storage _ hp.1 hp.2.1
      (hp.2.2 _ (by decide))]
    exact h3
  · show w.store.budgetCategories = budgetCategoryStorage.getAll
      (expenseStorage.add w.storage (mkExpense d i n))
    rw [budgetCategoryStorage.getAll_congrCat w.storage _ hp.1 hp.2.1
      (hp.2.2 _ (by decide))]
    exact h4

theorem synced_updateExpense (w : World) (hw : w.storage.hasWindow = true)
    (hl : w.storage.hasLocalStorage = true) (hs : synced w)
    (hnd : (w.store.expenses.map (fun e => e.id)).Nodup)
    (id : String) (u : ExpensePatch) : synced (updateExpense w id u) := by
  obtain ⟨h1, h2, h3, h4⟩ := hs
  have hp := expenseStorage.update_preservesExp w.storage id u
  refine ⟨?_, ?_, ?_, ?_⟩
  · show w.store.expenses.map
        (fun e => if e.id == id then mergeExpense e u else e) =
      expenseStorage.getAll (expenseStorage.update w.storage id u)
    unfold expenseStorage.update
    cases hc : updateExpenseById id u (expenseStorage.getAll w.storage) with
    | some ys =>
        rw [expenseStorage.getAll_saveExp _ _ hw hl]
        apply map_mergeExpense_of_updateById_some id u _ ys hnd
        rw [h1]
        exact hc
    | none =>
        have hall := updateExpenseById_none_forall id u _ hc
        have hallmem : ∀ e ∈ w.store.expenses, e.id ≠ id := by
          intro e he
          exact hall e (h1 ▸ he)
        rw [map_mergeExpense_of_not_mem id u _ hallmem]
        exact h1
  · show w.store.budgets = budgetStorage.getAll
      (expenseStorage.update w.storage id u)
    rw [budgetStorage.getAll_congrBud w.storage _ hp.1 hp.2.1
      (hp.2.2 _ (by decide))]
    exact h2
  · show w.store.paymentMethods = paymentMethodStorage.getAll
      (expenseStorage.update w.storage id u)
    rw [paymentMethodStorage.getAll_congrPm w.storage _ hp.1 hp.2.1
      (hp.2.2 _ (by decide))]
    exact h3
  · show w.store.budgetCategories = budgetCategoryStorage.getAll
      (expenseStorage.update w.storage id u)
    rw [budgetCategoryStorage.getAll_congrCat w.storage _ hp.1 hp.2.1
      (hp.2.2 _ (by decide))]
    exact h4

theorem synced_deleteExpense (w : World) (hw : w.storage.hasWindow = true)
    (hl : w.storage.hasLocalStorage = true) (hs : synced w)
    (id : String) : synced (deleteExpense w id) := by
  obtain ⟨h1, h2, h3, h4⟩ := hs
  have hp := expenseStorage.delete_preservesExp w.storage id
  refine ⟨?_, ?_, ?_, ?_⟩
  · show w.store.expenses.filter (fun e => e.id != id) =
      expenseStorage.getAll (expenseStorage.delete w.storage id)
    rw [expenseStorage.getAll_deleteExp _ _ hw hl, h1]
  · show w.store.budgets = budgetStorage.getAll
      (expenseStorage.delete w.storage id)
    rw [budgetStorage.getAll_congrBud w.storage _ hp.1 hp.2.1
      (hp.2.2 _ (by decide))]
    exact h2
  · show w.store.paymentMethods = paymentMethodStorage.getAll
      (expenseStorage.delete w.storage id)
    rw [paymentMethodStorage.getAll_congrPm w.storage _ hp.1 hp.2.1
      (hp.2.2 _ (by decide))]
    exact h3
  · show w.store.budgetCategories = budgetCategoryStorage.getAll
      (expenseStorage.delete w.storage id)
    rw [budgetCategoryStorage.getAll_congrCat w.storage _ hp.1 hp.2.1
      (hp.2.2 _ (by decide))]
    exact h4

theorem updateBudgetById_none_forall (id : String) (u : BudgetPatch)
    (xs : List Budget) (h : updateBudgetById id u xs = none) :
    ∀ e ∈ xs, e.id ≠ id := by
  induction xs with
  | nil => intro e he; simp at he
  | cons x rest ih =>
      intro e he
      by_cases hx : (x.id == id) = true
      · simp only [updateBudgetById, if_pos hx] at h
        exact absurd h (by simp)
      · simp only [updateBudgetById, if_neg hx] at h
        have hrest : updateBudgetById id u rest = none := by
          cases hc : updateBudgetById id u rest with
          | none => rfl
          | some zs => rw [hc] at h; simp at h
        rcases List.mem_cons.mp he with rfl | hm
        · simpa using hx
        · exact ih hrest e hm

theorem synced_addBudget (w : World) (hw : w.storage.hasWindow = true)
    (hl : w.storage.hasLocalStorage = true) (hs : synced w)
    (d : BudgetInput) (i n : String) : synced (addBudget w d i n) := by
  obtain ⟨h1, h2, h3, h4⟩ := hs
  have hp := budgetStorage.add_preservesBud w.storage (mkBudget d i n)
  refine ⟨?_, ?_, ?_, ?_⟩
  · show w.store.expenses = expenseStorage.getAll
      (budgetStorage.add w.storage (mkBudget d i n))
    rw [expenseStorage.getAll_congrExp w.storage _ hp.1 hp.2.1
      (hp.2.2 _ (by decide))]
    exact h1
  · show w.store.budgets ++ [mkBudget d i n] =
      budgetStorage.getAll (budgetStorage.add w.storage (mkBudget d i n))
    rw [budgetStorage.getAll_addBud _ _ hw hl, h2]
  · show w.store.paymentMethods = paymentMethodStorage.getAll
      (budgetStorage.add w.storage (mkBudget d i n))
    rw [paymentMethodStorage.getAll_congrPm w.storage _ hp.1 hp.2.1
      (hp.2.2 _ (by decide))]
    exact h3
  · show w.store.budgetCategories = budgetCategoryStorage.getAll
      (budgetStorage.add w.storage (mkBudget d i n))
    rw [budgetCategoryStorage.getAll_congrCat w.storage _ hp.1 hp.2.1
      (hp.2.2 _ (by decide))]
    exact h4

theorem synced_updateBudget (w : World) (hw : w.storage.hasWindow = true)
    (hl : w.storage.hasLocalStorage = true) (hs : synced w)
    (hnd : (w.store.budgets.map (fun e => e.id)).Nodup)
    (id : String) (u : BudgetPatch) : synced (updateBudget w id u) := by
  obtain ⟨h1, h2, h3, h4⟩ := hs
  have hp := budgetStorage.update_preservesBud w.storage id u
  refine ⟨?_, ?_, ?_, ?_⟩
  · show w.store.expenses = expenseStorage.getAll
      (budgetStorage.update w.storage id u)
    rw [expenseStorage.getAll_congrExp w.storage _ hp.1 hp.2.1
      (hp.2.2 _ (by decide))]
    exact h1
  · show w.store.budgets.map
        (fun e => if e.id == id then mergeBudget e u else e) =
      budgetStorage.getAll (budgetStorage.update w.storage id u)
    unfold budgetStorage.update
    cases hc : updateBudgetById id u (budgetStorage.getAll w.storage) with
    | some ys =>
        rw [budgetStorage.getAll_saveBud _ _ hw hl]
        apply map_mergeBudget_of_updateById_some id u _ ys hnd
        rw [h2]
        exact hc
    | none =>
        have hall := updateBudgetById_none_forall id u _ hc
        have hallmem : ∀ e ∈ w.store.budgets, e.id ≠ id := by
          intro e he
          exact hall e (h2 ▸ he)
        rw [map_mergeBudget_of_not_mem id u _ hallmem]
        exact h2
  · show w.store.paymentMethods = paymentMethodStorage.getAll
      (budgetStorage.update w.storage id u)
    rw [paymentMethodStorage.getAll_congrPm w.storage _ hp.1 hp.2.1
      (hp.2.2 _ (by decide))]
    exact h3
  · show w.store.budgetCategories = budgetCategoryStorage.getAll
      (budgetStorage.update w.storage id u)
    rw [budgetCategoryStorage.getAll_congrCat w.storage _ hp.1 hp.2.1
      (hp.2.2 _ (by decide))]
    exact h4

theorem synced_deleteBudget (w : World) (hw : w.storage.hasWindow = true)
    (hl : w.storage.hasLocalStorage = true) (hs : synced w)
    (id : String) : synced (deleteBudget w id) := by
  obtain ⟨h1, h2, h3, h4⟩ := hs
  have hp := budgetStorage.delete_preservesBud w.storage id
  refine ⟨?_, ?_, ?_, ?_⟩
  · show w.store.expenses = expenseStorage.getAll
      (budgetStorage.delete w.storage id)
    rw [expenseStorage.getAll_congrExp w.storage _ hp.1 hp.2.1
      (hp.2.2 _ (by decide))]
    exact h1
  · show w.store.budgets.filter (fun e => e.id != id) =
      budgetStorage.getAll (budgetStorage.delete w.storage id)
    rw [budgetStorage.getAll_deleteBud _ _ hw hl, h2]
  · show w.store.paymentMethods = paymentMethodStorage.getAll
      (budgetStorage.delete w.storage id)
    rw [paymentMethodStorage.getAll_congrPm w.storage _ hp.1 hp.2.1
      (hp.2.2 _ (by decide))]
    exact h3
  · show w.store.budgetCategories = budgetCategoryStorage.getAll
      (budgetStorage.delete w.storage id)
    rw [budgetCategoryStorage.getAll_congrCat w.storage _ hp.1 hp.2.1
      (hp.2.2 _ (by decide))]
    exact h4

theorem updatePaymentMethodById_none_forall (id : String) (u : PaymentMethodPatch)
    (xs : List PaymentMethodConfig) (h : updatePaymentMethodById id u xs = none) :
    ∀ e ∈ xs, e.id ≠ id := by
  induction xs with
  | nil => intro e he; simp at he
  | cons x rest ih =>
      intro e he
      by_cases hx : (x.id == id) = true
      · simp only [updatePaymentMethodById, if_pos hx] at h
        exact absurd h (by simp)
      · simp only [updatePaymentMethodById, if_neg hx] at h
        have hrest : updatePaymentMethodById id u rest = none := by
          cases hc : updatePaymentMethodById id u rest with
          | none => rfl
          | some zs => rw [hc] at h; simp at h
        rcases List.mem_cons.mp he with rfl | hm
        · simpa using hx
        · exact ih hrest e hm

theorem synced_addPaymentMethod (w : World) (hw : w.storage.hasWindow = true)
    (hl : w.storage.hasLocalStorage = true) (hs : synced w)
    (d : PaymentMethodInput) (i : String) : synced (addPaymentMethod w d i) := by
  obtain ⟨h1, h2, h3, h4⟩ := hs
  have hp := paymentMethodStorage.add_preservesPm w.storage (mkPaymentMethod d i)
  refine ⟨?_, ?_, ?_, ?_⟩
  · show w.store.expenses = expenseStorage.getAll
      (paymentMethodStorage.add w.storage (mkPaymentMethod d i))
    rw [expenseStorage.getAll_congrExp w.storage _ hp.1 hp.2.1
      (hp.2.2 _ (by decide))]
    exact h1
  · show w.store.budgets = budgetStorage.getAll
      (paymentMethodStorage.add w.storage (mkPaymentMethod d i))
    rw [budgetStorage.getAll_congrBud w.storage _ hp.1 hp.2.1
      (hp.2.2 _ (by decide))]
    exact h2
  · show w.store.paymentMethods ++ [mkPaymentMethod d i] =
      paymentMethodStorage.getAll (paymentMethodStorage.add w.storage (mkPaymentMethod d i))
    rw [paymentMethodStorage.getAll_addPm _ _ hw hl, h3]
  · show w.store.budgetCategories = budgetCategoryStorage.getAll
      (paymentMethodStorage.add w.storage (mkPaymentMethod d i))
    rw [budgetCategoryStorage.getAll_congrCat w.storage _ hp.1 hp.2.1
      (hp.2.2 _ (by decide))]
    exact h4

theorem synced_updatePaymentMethod (w : World) (hw : w.storage.hasWindow = true)
    (hl : w.storage.hasLocalStorage = true) (hs : synced w)
    (hnd : (w.store.paymentMethods.map (fun e => e.id)).Nodup)
    (id : String) (u : PaymentMethodPatch) : synced (updatePaymentMethod w id u) := by
  obtain ⟨h1, h2, h3, h4⟩ := hs
  have hp := paymentMethodStorage.update_preservesPm w.storage id u
  refine ⟨?_, ?_, ?_, ?_⟩
  · show w.store.expenses = expenseStorage.getAll
      (paymentMethodStorage.update w.storage id u)
    rw [expenseStorage.getAll_congrExp w.storage _ hp.1 hp.2.1
      (hp.2.2 _ (by decide))]
    exact h1
  · show w.store.budgets = budgetStorage.getAll
      (paymentMethodStorage.update w.storage id u)
    rw [budgetStorage.getAll_congrBud w.storage _ hp.1 hp.2.1
      (hp.2.2 _ (by decide))]
    exact h2
  · show w.store.paymentMethods.map
        (fun e => if e.id == id then mergePaymentMethod e u else e) =
      paymentMethodStorage.getAll (paymentMethodStorage.update w.storage id u)
    unfold paymentMethodStorage.update
    cases hc : updatePaymentMethodById id u (paymentMethodStorage.getAll w.storage) with
    | some ys =>
        rw [paymentMethodStorage.getAll_savePm _ _ hw hl]
        apply map_mergePaymentMethod_of_updateById_some id u _ ys hnd
        rw [h3]
        exact hc
    | none =>
        have hall := updatePaymentMethodById_none_forall id u _ hc
        have hallmem : ∀ e ∈ w.store.paymentMethods, e.id ≠ id := by
          intro e he
          exact hall e (h3 ▸ he)
        rw [map_mergePaymentMethod_of_not_mem id u _ hallmem]
        exact h3
  · show w.store.budgetCategories = budgetCategoryStorage.getAll
      (paymentMethodStorage.update w.storage id u)
    rw [budgetCategoryStorage.getAll_congrCat w.storage _ hp.1 hp.2.1
      (hp.2.2 _ (by decide))]
    exact h4

theorem synced_deletePaymentMethod (w : World) (hw : w.storage.hasWindow = true)
    (hl : w.storage.hasLocalStorage = true) (hs : synced w)
    (id : String) : synced (deletePaymentMethod w id) := by
  obtain ⟨h1, h2, h3, h4⟩ := hs
  have hp := paymentMethodStorage.delete_preservesPm w.storage id
  refine ⟨?_, ?_, ?_, ?_⟩
  · show w.store.expenses = expenseStorage.getAll
      (paymentMethodStorage.delete w.storage id)
    rw [expenseStorage.getAll_congrExp w.storage _ hp.1 hp.2.1
      (hp.2.2 _ (by decide))]
    exact h1
  · show w.store.budgets = budgetStorage.getAll
      (paymentMethodStorage.delete w.storage id)
    rw [budgetStorage.getAll_congrBud w.storage _ hp.1 hp.2.1
      (hp.2.2 _ (by decide))]
    exact h2
  · show w.store.paymentMethods.filter (fun e => e.id != id) =
      paymentMethodStorage.getAll (paymentMethodStorage.delete w.storage id)
    rw [paymentMethodStorage.getAll_deletePm _ _ hw hl, h3]
  · show w.store.budgetCategories = budgetCategoryStorage.getAll
      (paymentMethodStorage.delete w.storage id)
    rw [budgetCategoryStorage.getAll_congrCat w.storage _ hp.1 hp.2.1
      (hp.2.2 _ (by decide))]
    exact h4

theorem updateBudgetCategoryById_none_forall (id : String) (u : BudgetCategoryPatch)
    (xs : List BudgetCategory) (h : updateBudgetCategoryById id u xs = none) :
    ∀ e ∈ xs, e.id ≠ id := by
  induction xs with
  | nil => intro e he; simp at he
  | cons x rest ih =>
      intro e he
      by_cases hx : (x.id == id) = true
      · simp only [updateBudgetCategoryById, if_pos hx] at h
        exact absurd h (by simp)
      · simp only [updateBudgetCategoryById, if_neg hx] at h
        have hrest : updateBudgetCategoryById id u rest = none := by
          cases hc : updateBudgetCategoryById id u rest with
          | none => rfl
          | some zs => rw [hc] at h; simp at h
        rcases List.mem_cons.mp he with rfl | hm
        · simpa using hx
        · exact ih hrest e hm

theorem synced_addBudgetCategory (w : World) (hw : w.storage.hasWindow = true)
    (hl : w.storage.hasLocalStorage = true) (hs : synced w)
    (d : BudgetCategoryInput) (i n : String) : synced (addBudgetCategory w d i n) := by
  obtain ⟨h1, h2, h3, h4⟩ := hs
  have hp := budgetCategoryStorage.add_preservesCat w.storage (mkBudgetCategory d i n)
  refine ⟨?_, ?_, ?_, ?_⟩
  · show w.store.expenses = expenseStorage.getAll
      (budgetCategoryStorage.add w.storage (mkBudgetCategory d i n))
    rw [expenseStorage.getAll_congrExp w.storage _ hp.1 hp.2.1
      (hp.2.2 _ (by decide))]
    exact h1
  · show w.store.budgets = budgetStorage.getAll
      (budgetCategoryStorage.add w.storage (mkBudgetCategory d i n))
    rw [budgetStorage.getAll_congrBud w.storage _ hp.1 hp.2.1
      (hp.2.2 _ (by decide))]
    exact h2
  · show w.store.paymentMethods = paymentMethodStorage.getAll
      (budgetCategoryStorage.add w.storage (mkBudgetCategory d i n))
    rw [paymentMethodStorage.getAll_congrPm w.storage _ hp.1 hp.2.1
      (hp.2.2 _ (by decide))]
    exact h3
  · show w.store.budgetCategories ++ [mkBudgetCategory d i n] =
      budgetCategoryStorage.getAll (budgetCategoryStorage.add w.storage (mkBudgetCategory d i n))
    rw [budgetCategoryStorage.getAll_addCat _ _ hw hl, h4]

theorem synced_updateBudgetCategory (w : World) (hw : w.storage.hasWindow = true)
    (hl : w.storage.hasLocalStorage = true) (hs : synced w)
    (hnd : (w.store.budgetCategories.map (fun e => e.id)).Nodup)
    (id : String) (u : BudgetCategoryPatch) : synced (updateBudgetCategory w id u) := by
  obtain ⟨h1, h2, h3, h4⟩ := hs
  have hp := budgetCategoryStorage.update_preservesCat w.storage id u
  refine ⟨?_, ?_, ?_, ?_⟩
  · show w.store.expenses = expenseStorage.getAll
      (budgetCategoryStorage.update w.storage id u)
    rw [expenseStorage.getAll_congrExp w.storage _ hp.1 hp.2.1
      (hp.2.2 _ (by decide))]
    exact h1
  · show w.store.budgets = budgetStorage.getAll
      (budgetCategoryStorage.update w.storage id u)
    rw [budgetStorage.getAll_congrBud w.storage _ hp.1 hp.2.1
      (hp.2.2 _ (by decide))]
    exact h2
  · show w.store.paymentMethods = paymentMethodStorage.getAll
      (budgetCategoryStorage.update w.storage id u)
    rw [paymentMethodStorage.getAll_congrPm w.storage _ hp.1 hp.2.1
      (hp.2.2 _ (by decide))]
    exact h3
  · show w.store.budgetCategories.map
        (fun e => if e.id == id then mergeBudgetCategory e u else e) =
      budgetCategoryStorage.getAll (budgetCategoryStorage.update w.storage id u)
    unfold budgetCategoryStorage.update
    cases hc : updateBudgetCategoryById id u (budgetCategoryStorage.getAll w.storage) with
    | some ys =>
        rw [budgetCategoryStorage.getAll_saveCat _ _ hw hl]
        apply map_mergeBudgetCategory_of_updateById_some id u _ ys hnd
        rw [h4]
        exact hc
    | none =>
        have hall := updateBudgetCategoryById_none_forall id u _ hc
        have hallmem : ∀ e ∈ w.store.budgetCategories, e.id ≠ id := by
          intro e he
          exact hall e (h4 ▸ he)
        rw [map_mergeBudgetCategory_of_not_mem id u _ hallmem]
        exact h4

theorem synced_deleteBudgetCategory (w : World) (hw : w.storage.hasWindow = true)
    (hl : w.storage.hasLocalStorage = true) (hs : synced w)
    (id : String) : synced (deleteBudgetCategory w id) := by
  obtain ⟨h1, h2, h3, h4⟩ := hs
  have hp := budgetCategoryStorage.delete_preservesCat w.storage id
  refine ⟨?_, ?_, ?_, ?_⟩
  · show w.store.expenses = expenseStorage.getAll
      (budgetCategoryStorage.delete w.storage id)
    rw [expenseStorage.getAll_congrExp w.storage _ hp.1 hp.2.1
      (hp.2.2 _ (by decide))]
    exact h1
  · show w.store.budgets = budgetStorage.getAll
      (budgetCategoryStorage.delete w.storage id)
    rw [budgetStorage.getAll_congrBud w.storage _ hp.1 hp.2.1
      (hp.2.2 _ (by decide))]
    exact h2
  · show w.store.paymentMethods = paymentMethodStorage.getAll
      (budgetCategoryStorage.delete w.storage id)
    rw [paymentMethodStorage.getAll_congrPm w.storage _ hp.1 hp.2.1
      (hp.2.2 _ (by decide))]
    exact h3
  · show w.store.budgetCategories.filter (fun e => e.id != id) =
      budgetCategoryStorage.getAll (budgetCategoryStorage.delete w.storage id)
    rw [budgetCategoryStorage.getAll_deleteCat _ _ hw hl, h4]

/-- Two distinct expense records sharing one identifier. -/
def eDup1 : Expense :=
  ⟨"dup", 1, "food", "cash", "", "2024-01-01", "t1"⟩

def eDup2 : Expense :=
  ⟨"dup", 1, "food", "cash", "", "2024-01-02", "t2"⟩

/-- World whose memory and storage agree and hold two expenses with the
same id (reachable through update patches that rewrite the id field). -/
def wDupIds : World :=
  ⟨⟨[eDup1, eDup2], [], [], []⟩,
   ⟨true, true,
    fun k => if k = STORAGE_KEYS.expenses
      then some (encodeExpenses [eDup1, eDup2]) else none⟩⟩

/-- C4 counterexample: from a state where memory and storage agree (and
persistence is available), one update on a duplicated id patches every
match in memory but only the first match in storage, so the collections
disagree afterwards. -/
theorem updateExpense_sync_counterexample :
    (wDupIds.store.expenses = expenseStorage.getAll wDupIds.storage ∧
     wDupIds.store.budgets = budgetStorage.getAll wDupIds.storage ∧
     wDupIds.store.paymentMethods =
       paymentMethodStorage.getAll wDupIds.storage ∧
     wDupIds.store.budgetCategories =
       budgetCategoryStorage.getAll wDupIds.storage) ∧
    wDupIds.storage.hasWindow = true ∧
    wDupIds.storage.hasLocalStorage = true ∧
    (updateExpense wDupIds "dup" patchAmount).store.expenses ≠
      expenseStorage.getAll
        (updateExpense wDupIds "dup" patchAmount).storage := by
  decide

/-- C4 (amended): from a state where memory equals storage, with
persistence available and no duplicate identifiers within a collection,
every one of the twelve mutators re-establishes that each in-memory
collection equals the stored one. -/
theorem mutators_preserve_synced (w : World)
    (hw : w.storage.hasWindow = true) (hl : w.storage.hasLocalStorage = true)
    (hs : synced w) (hnd : idsNodup w)
    (dE : ExpenseInput) (uE : ExpensePatch) (dB : BudgetInput)
    (uB : BudgetPatch) (dP : PaymentMethodInput) (uP : PaymentMethodPatch)
    (dC : BudgetCategoryInput) (uC : BudgetCategoryPatch)
    (id freshId now : String) :
    synced (addExpense w dE freshId now) ∧
    synced (updateExpense w id uE) ∧
    synced (deleteExpense w id) ∧
    synced (addBudget w dB freshId now) ∧
    synced (updateBudget w id uB) ∧
    synced (deleteBudget w id) ∧
    synced (addPaymentMethod w dP freshId) ∧
    synced (updatePaymentMethod w id uP) ∧
    synced (deletePaymentMethod w id) ∧
    synced (addBudgetCategory w dC freshId now) ∧
    synced (updateBudgetCategory w id uC) ∧
    synced (deleteBudgetCategory w id) :=
  ⟨synced_addExpense w hw hl hs dE freshId now,
   synced_updateExpense w hw hl hs hnd.1 id uE,
   synced_deleteExpense w hw hl hs id,
   synced_addBudget w hw hl hs dB freshId now,
   synced_updateBudget w hw hl hs hnd.2.1 id uB,
   synced_deleteBudget w hw hl hs id,
   synced_addPaymentMethod w hw hl hs dP freshId,
   synced_updatePaymentMethod w hw hl hs hnd.2.2.1 id uP,
   synced_deletePaymentMethod w hw hl hs id,
   synced_addBudgetCategory w hw hl hs dC freshId now,
   synced_updateBudgetCategory w hw hl hs hnd.2.2.2 id uC,
   synced_deleteBudgetCategory w hw hl hs id⟩

theorem mutators_preserve_synced_witness :
    synced (addExpense wEmpty dLunch "id1" "ts") :=
  (mutators_preserve_synced wEmpty rfl rfl ⟨rfl, rfl, rfl, rfl⟩
    ⟨by decide, by decide, by decide, by decide⟩ dLunch patchAmount
    ⟨"food", 1, "2024-01"⟩ {} ⟨"cash", 0, none, none, none⟩ {} ⟨"food"⟩ {}
    "x" "id1" "ts").1
